import Mathlib

/- Verification of the event-to-storm linkage engine in
gewittergefahr/gg_utils/linkage.py.

Modelling conventions, used throughout:
* pandas DataFrames are modelled as lists of row records, in table order;
* float coordinates, distances and times are modelled as exact rationals
  (every IEEE float is a rational, and none of the verified code paths
  depend on rounding);
* identifier strings (tornado IDs, secondary storm IDs) are modelled by an
  arbitrary linearly ordered type with decidable equality; in the source
  they are Python strings, compared and sorted lexicographically by
  numpy.unique;
* `None` / NaN markers become `Option`;
* a Python function that can raise becomes a function into `Except String`.
-/

namespace Linkage

/-! ## Shared list helpers (numpy primitives) -/

/-- numpy.unique on a 1-D array: the distinct values in ascending order.
(`List.dedup` keeps one copy of each value, `insertionSort` puts them in
ascending order.) -/
def numpyUnique {α : Type} [LinearOrder α] (l : List α) : List α :=
  l.dedup.insertionSort (· ≤ ·)

theorem mem_numpyUnique {α : Type} [LinearOrder α] {l : List α} {x : α} :
    x ∈ numpyUnique l ↔ x ∈ l := by
  unfold numpyUnique
  rw [(List.perm_insertionSort _ _).mem_iff, List.mem_dedup]

theorem numpyUnique_nodup {α : Type} [LinearOrder α] (l : List α) :
    (numpyUnique l).Nodup :=
  ((List.perm_insertionSort _ _).nodup_iff).mpr l.nodup_dedup

theorem numpyUnique_sorted {α : Type} [LinearOrder α] (l : List α) :
    (numpyUnique l).Sorted (· ≤ ·) :=
  List.sorted_insertionSort _ _

/-- numpy.argmin with numpy's tie-break: returns the row (here, the list
element) whose key is minimal, choosing the FIRST one on ties; `none` on an
empty array (where numpy would raise). -/
def numpyArgminFirst {ρ κ : Type} [LinearOrder κ] (f : ρ → κ) :
    List ρ → Option ρ
  | [] => none
  | r :: rs =>
    match numpyArgminFirst f rs with
    | none => some r
    | some r' => if f r' < f r then some r' else some r

theorem numpyArgminFirst_eq_none_iff {ρ κ : Type} [LinearOrder κ]
    (f : ρ → κ) (l : List ρ) : numpyArgminFirst f l = none ↔ l = [] := by
  cases l with
  | nil => simp [numpyArgminFirst]
  | cons r rs =>
    simp only [numpyArgminFirst]
    cases h : numpyArgminFirst f rs with
    | none => simp
    | some r' =>
      constructor
      · intro hc
        by_cases hlt : f r' < f r <;> simp [hlt] at hc
      · intro hc
        exact absurd hc (List.cons_ne_nil r rs)

theorem numpyArgminFirst_mem {ρ κ : Type} [LinearOrder κ]
    (f : ρ → κ) {l : List ρ} {r : ρ} (h : numpyArgminFirst f l = some r) :
    r ∈ l := by
  induction l with
  | nil => simp [numpyArgminFirst] at h
  | cons a as ih =>
    simp only [numpyArgminFirst] at h
    cases hrec : numpyArgminFirst f as with
    | none => rw [hrec] at h; simp at h; simp [h]
    | some r' =>
      rw [hrec] at h
      by_cases hlt : f r' < f r'
      · simp at hlt
      by_cases hlt2 : f r' < f a
      · simp [hlt2] at h
        subst h
        exact List.mem_cons_of_mem a (ih hrec)
      · simp [hlt2] at h
        simp [h]

theorem numpyArgminFirst_le {ρ κ : Type} [LinearOrder κ]
    (f : ρ → κ) {l : List ρ} {r : ρ} (h : numpyArgminFirst f l = some r) :
    ∀ x ∈ l, f r ≤ f x := by
  induction l generalizing r with
  | nil => simp [numpyArgminFirst] at h
  | cons a as ih =>
    simp only [numpyArgminFirst] at h
    cases hrec : numpyArgminFirst f as with
    | none =>
      rw [hrec] at h
      simp only [Option.some.injEq] at h
      subst h
      have has : as = [] := (numpyArgminFirst_eq_none_iff f as).mp hrec
      subst has
      simp
    | some r' =>
      rw [hrec] at h
      by_cases hlt : f r' < f a
      · simp only [if_pos hlt, Option.some.injEq] at h
        subst h
        intro x hx
        rcases List.mem_cons.mp hx with hx | hx
        · subst hx; exact le_of_lt hlt
        · exact ih hrec x hx
      · simp only [if_neg hlt, Option.some.injEq] at h
        subst h
        intro x hx
        rcases List.mem_cons.mp hx with hx | hx
        · subst hx; exact le_rfl
        · exact le_trans (not_lt.mp hlt) (ih hrec x hx)

/-! ## Cross-period reconciliation: `_remove_redundant_tornado_linkages`
(linkage.py lines 1995-2101) -/

/-- One row of a tornado-to-storm table (output doc of `_find_nearest_storms`).
`α` is the type of tornado ID strings, `β` the type of secondary storm ID
strings, and `γ` holds the remaining event columns (latitude, longitude,
Fujita rating, ...), which `_remove_redundant_tornado_linkages` never touches:
rows are kept or dropped wholesale. -/
structure TornadoToStormRow (α β γ : Type) where
  tornado_id_string : α
  unix_time_sec : ℤ
  nearest_secondary_id_string : Option β
  linkage_distance_metres : ℚ
  payload : γ

variable {α β γ : Type}

/-- Rows of a tornado-to-storm table belonging to one tornado ID
(`numpy.where(table[TORNADO_ID_COLUMN].values == this_tornado_id_string)`). -/
def tornadoRows [DecidableEq α] (t : α) (tbl : List (TornadoToStormRow α β γ)) :
    List (TornadoToStormRow α β γ) :=
  tbl.filter (fun r => decide (r.tornado_id_string = t))

/-- The row of tornado `t` with the earliest event time (`numpy.argmin` over
the tornado's event times, first row on ties).  `none` when the tornado has no
rows. -/
def earliestTornadoRow [DecidableEq α] (t : α)
    (tbl : List (TornadoToStormRow α β γ)) :
    Option (TornadoToStormRow α β γ) :=
  numpyArgminFirst (fun r => r.unix_time_sec) (tornadoRows t tbl)

/-- What `_remove_redundant_tornado_linkages` decides to do for one tornado ID,
reading the early and late tables.  Mirrors the body of the loop over
`unique_tornado_id_strings`:
* tornado absent from either table: nothing happens (the two `continue`s);
* earliest event times differ between the tables: `ValueError`;
* earliest early row unlinked: drop the tornado's early rows;
* else earliest late row unlinked: drop the tornado's late rows;
* else keep the period with the smaller linkage distance at the earliest row,
  dropping the other (ties drop the late period). -/
inductive RedundantDecision : Type
  | keepBoth : RedundantDecision
  | dropEarly : RedundantDecision
  | dropLate : RedundantDecision
  | mismatch : RedundantDecision
  deriving DecidableEq

open RedundantDecision in
def redundantDecision [DecidableEq α] (t : α)
    (early_tbl late_tbl : List (TornadoToStormRow α β γ)) :
    RedundantDecision :=
  match earliestTornadoRow t early_tbl, earliestTornadoRow t late_tbl with
  | none, _ => keepBoth
  | _, none => keepBoth
  | some er, some lr =>
    if er.unix_time_sec ≠ lr.unix_time_sec then mismatch
    else if er.nearest_secondary_id_string.isNone then dropEarly
    else if lr.nearest_secondary_id_string.isNone then dropLate
    else if er.linkage_distance_metres ≤ lr.linkage_distance_metres then
      dropLate
    else dropEarly

/-- One iteration of the loop in `_remove_redundant_tornado_linkages`, for
tornado ID `t`.  The source mutates the tables in place with
`DataFrame.drop`; here dropping the tornado's rows is a filter.  The source
interpolates the tornado ID and the two formatted start times into the
`ValueError` message. -/
def removeRedundantStep [DecidableEq α] (t : α)
    (early_tbl late_tbl : List (TornadoToStormRow α β γ)) :
    Except String
      (List (TornadoToStormRow α β γ) × List (TornadoToStormRow α β γ)) :=
  match redundantDecision t early_tbl late_tbl with
  | .mismatch =>
    .error "tornado appears in early and late tables with different start times"
  | .keepBoth => .ok (early_tbl, late_tbl)
  | .dropEarly =>
    .ok (early_tbl.filter (fun r => decide (r.tornado_id_string ≠ t)), late_tbl)
  | .dropLate =>
    .ok (early_tbl, late_tbl.filter (fun r => decide (r.tornado_id_string ≠ t)))

/-- The loop of `_remove_redundant_tornado_linkages` over the sorted unique
tornado IDs of both tables. -/
def removeRedundantLoop [DecidableEq α] (ids : List α)
    (early_tbl late_tbl : List (TornadoToStormRow α β γ)) :
    Except String
      (List (TornadoToStormRow α β γ) × List (TornadoToStormRow α β γ)) :=
  match ids with
  | [] => .ok (early_tbl, late_tbl)
  | t :: rest =>
    match removeRedundantStep t early_tbl late_tbl with
    | .error e => .error e
    | .ok (e', l') => removeRedundantLoop rest e' l'

/-- `_remove_redundant_tornado_linkages` (linkage.py lines 1995-2101).
Removes redundant tornado-occurrence linkages over two periods; raises
`ValueError` when a tornado appears in both tables with different start
times. -/
def remove_redundant_tornado_linkages [LinearOrder α]
    (early_tornado_to_storm_table late_tornado_to_storm_table :
      List (TornadoToStormRow α β γ)) :
    Except String
      (List (TornadoToStormRow α β γ) × List (TornadoToStormRow α β γ)) :=
  removeRedundantLoop
    (numpyUnique
      ((early_tornado_to_storm_table ++ late_tornado_to_storm_table).map
        (fun r => r.tornado_id_string)))
    early_tornado_to_storm_table late_tornado_to_storm_table

/-- The recorded start time of a tornado in a table: the event time of its
earliest row (`none` when the tornado has no rows). -/
def tornadoStartTime [DecidableEq α] (t : α)
    (tbl : List (TornadoToStormRow α β γ)) : Option ℤ :=
  (earliestTornadoRow t tbl).map (fun r => r.unix_time_sec)

theorem earliestTornadoRow_eq_none_iff [DecidableEq α] (t : α)
    (tbl : List (TornadoToStormRow α β γ)) :
    earliestTornadoRow t tbl = none ↔ tornadoRows t tbl = [] :=
  numpyArgminFirst_eq_none_iff _ _

/-- The recorded start time is genuinely the earliest event time of the
tornado's rows. -/
theorem tornadoStartTime_isMin [DecidableEq α] {t : α}
    {tbl : List (TornadoToStormRow α β γ)} {m : ℤ}
    (h : tornadoStartTime t tbl = some m) :
    (∃ r ∈ tornadoRows t tbl, r.unix_time_sec = m) ∧
      ∀ r ∈ tornadoRows t tbl, m ≤ r.unix_time_sec := by
  unfold tornadoStartTime at h
  cases hr : earliestTornadoRow t tbl with
  | none => rw [hr] at h; simp at h
  | some er =>
    rw [hr] at h
    simp at h
    subst h
    exact ⟨⟨er, numpyArgminFirst_mem _ hr, rfl⟩,
      fun r hmem => numpyArgminFirst_le _ hr r hmem⟩

theorem tornadoRows_filter [DecidableEq α] (t : α)
    (tbl : List (TornadoToStormRow α β γ))
    (p : TornadoToStormRow α β γ → Bool) :
    tornadoRows t (tbl.filter p) = (tornadoRows t tbl).filter p := by
  unfold tornadoRows
  rw [List.filter_filter, List.filter_filter]
  apply List.filter_congr
  intro r _
  cases p r <;> simp

theorem tornadoRows_drop_other [DecidableEq α] {t t' : α} (hne : t' ≠ t)
    (tbl : List (TornadoToStormRow α β γ)) :
    tornadoRows t'
        (tbl.filter (fun r => decide (r.tornado_id_string ≠ t))) =
      tornadoRows t' tbl := by
  rw [tornadoRows_filter]
  unfold tornadoRows
  rw [List.filter_filter]
  apply List.filter_congr
  intro r _
  by_cases hr : r.tornado_id_string = t'
  · simp [hr, hne]
  · simp [hr]

theorem redundantDecision_congr [DecidableEq α] (t : α)
    {E L E₀ L₀ : List (TornadoToStormRow α β γ)}
    (hE : tornadoRows t E = tornadoRows t E₀)
    (hL : tornadoRows t L = tornadoRows t L₀) :
    redundantDecision t E L = redundantDecision t E₀ L₀ := by
  unfold redundantDecision earliestTornadoRow
  rw [hE, hL]

/-- A tornado missing from either table is always kept in both
(the two `continue`s at the top of the loop body). -/
theorem redundantDecision_keepBoth_of_absent [DecidableEq α] (t : α)
    {E L : List (TornadoToStormRow α β γ)}
    (h : tornadoRows t E = [] ∨ tornadoRows t L = []) :
    redundantDecision t E L = .keepBoth := by
  unfold redundantDecision
  rcases h with h | h
  · rw [(earliestTornadoRow_eq_none_iff t E).mpr h]
    cases earliestTornadoRow t L <;> rfl
  · rw [(earliestTornadoRow_eq_none_iff t L).mpr h]
    cases earliestTornadoRow t E <;> rfl

/-- For a tornado present in both tables, the loop never decides `keepBoth`:
it must either raise or drop one period's rows. -/
theorem redundantDecision_ne_keepBoth_of_common [DecidableEq α] (t : α)
    {E L : List (TornadoToStormRow α β γ)}
    (hE : tornadoRows t E ≠ []) (hL : tornadoRows t L ≠ []) :
    redundantDecision t E L ≠ .keepBoth := by
  unfold redundantDecision
  cases hEr : earliestTornadoRow t E with
  | none => exact absurd ((earliestTornadoRow_eq_none_iff t E).mp hEr) hE
  | some er =>
    cases hLr : earliestTornadoRow t L with
    | none => exact absurd ((earliestTornadoRow_eq_none_iff t L).mp hLr) hL
    | some lr =>
      by_cases h1 : er.unix_time_sec ≠ lr.unix_time_sec
      · simp [h1]
      by_cases h2 : er.nearest_secondary_id_string.isNone
      · simp [h1, h2]
      by_cases h3 : lr.nearest_secondary_id_string.isNone
      · simp [h1, h2, h3]
      by_cases h4 : er.linkage_distance_metres ≤ lr.linkage_distance_metres <;>
        simp [h1, h2, h3, h4]

theorem removeRedundantStep_mismatch [DecidableEq α] {t : α}
    {E L : List (TornadoToStormRow α β γ)}
    (h : redundantDecision t E L = .mismatch) :
    removeRedundantStep t E L =
      .error
        "tornado appears in early and late tables with different start times" :=
  by unfold removeRedundantStep; rw [h]

theorem removeRedundantStep_keepBoth [DecidableEq α] {t : α}
    {E L : List (TornadoToStormRow α β γ)}
    (h : redundantDecision t E L = .keepBoth) :
    removeRedundantStep t E L = .ok (E, L) := by
  unfold removeRedundantStep; rw [h]

theorem removeRedundantStep_dropEarly [DecidableEq α] {t : α}
    {E L : List (TornadoToStormRow α β γ)}
    (h : redundantDecision t E L = .dropEarly) :
    removeRedundantStep t E L =
      .ok (E.filter (fun r => decide (r.tornado_id_string ≠ t)), L) := by
  unfold removeRedundantStep; rw [h]

theorem removeRedundantStep_dropLate [DecidableEq α] {t : α}
    {E L : List (TornadoToStormRow α β γ)}
    (h : redundantDecision t E L = .dropLate) :
    removeRedundantStep t E L =
      .ok (E, L.filter (fun r => decide (r.tornado_id_string ≠ t))) := by
  unfold removeRedundantStep; rw [h]

theorem removeRedundantLoop_cons_ok [DecidableEq α] {t : α} {rest : List α}
    {E L E' L' : List (TornadoToStormRow α β γ)}
    (h : removeRedundantStep t E L = .ok (E', L')) :
    removeRedundantLoop (t :: rest) E L = removeRedundantLoop rest E' L' := by
  conv_lhs => unfold removeRedundantLoop
  rw [h]

theorem removeRedundantLoop_cons_error [DecidableEq α] {t : α} {rest : List α}
    {E L : List (TornadoToStormRow α β γ)} {e : String}
    (h : removeRedundantStep t E L = .error e) :
    removeRedundantLoop (t :: rest) E L = .error e := by
  conv_lhs => unfold removeRedundantLoop
  rw [h]

/-- Characterization of the loop in `_remove_redundant_tornado_linkages`: as
long as no tornado ID still to be processed has mismatching start times, the
loop succeeds, and each tornado's rows survive in a period exactly when that
tornado's decision does not drop that period. -/
theorem removeRedundantLoop_char [DecidableEq α]
    (E₀ L₀ : List (TornadoToStormRow α β γ)) :
    ∀ (ids : List α) (E L : List (TornadoToStormRow α β γ)),
      ids.Nodup →
      (∀ t ∈ ids, tornadoRows t E = tornadoRows t E₀ ∧
        tornadoRows t L = tornadoRows t L₀) →
      (∀ t ∈ ids, redundantDecision t E₀ L₀ ≠ .mismatch) →
      removeRedundantLoop ids E L = .ok
        (E.filter (fun r => decide (r.tornado_id_string ∈ ids →
            redundantDecision r.tornado_id_string E₀ L₀ ≠ .dropEarly)),
         L.filter (fun r => decide (r.tornado_id_string ∈ ids →
            redundantDecision r.tornado_id_string E₀ L₀ ≠ .dropLate))) := by
  intro ids
  induction ids with
  | nil =>
    intro E L _ _ _
    simp [removeRedundantLoop]
  | cons t rest ih =>
    intro E L hnd hrows hnm
    have htmem : t ∈ t :: rest := List.mem_cons_self t rest
    have hdec : redundantDecision t E L = redundantDecision t E₀ L₀ :=
      redundantDecision_congr t (hrows t htmem).1 (hrows t htmem).2
    have hndr : rest.Nodup := (List.nodup_cons.mp hnd).2
    have htnr : t ∉ rest := (List.nodup_cons.mp hnd).1
    have hrows' : ∀ t' ∈ rest, tornadoRows t' E = tornadoRows t' E₀ ∧
        tornadoRows t' L = tornadoRows t' L₀ :=
      fun t' ht' => hrows t' (List.mem_cons_of_mem t ht')
    have hnm' : ∀ t' ∈ rest, redundantDecision t' E₀ L₀ ≠ .mismatch :=
      fun t' ht' => hnm t' (List.mem_cons_of_mem t ht')
    have hne_rest : ∀ t' ∈ rest, t' ≠ t := by
      intro t' ht' he
      rw [he] at ht'
      exact htnr ht'
    cases hd : redundantDecision t E₀ L₀ with
    | mismatch => exact absurd hd (hnm t htmem)
    | keepBoth =>
      rw [removeRedundantLoop_cons_ok
        (removeRedundantStep_keepBoth (hdec.trans hd))]
      rw [ih E L hndr hrows' hnm']
      congr 2
      · apply List.filter_congr
        intro r _
        by_cases hrt : r.tornado_id_string = t
        · simp [hrt, htnr, hd]
        · simp [List.mem_cons, hrt]
      · apply List.filter_congr
        intro r _
        by_cases hrt : r.tornado_id_string = t
        · simp [hrt, htnr, hd]
        · simp [List.mem_cons, hrt]
    | dropEarly =>
      rw [removeRedundantLoop_cons_ok
        (removeRedundantStep_dropEarly (hdec.trans hd))]
      rw [ih (E.filter (fun r => decide (r.tornado_id_string ≠ t))) L hndr
        (fun t' ht' => ⟨by
            rw [tornadoRows_drop_other (hne_rest t' ht') E]
            exact (hrows' t' ht').1,
          (hrows' t' ht').2⟩)
        hnm']
      congr 2
      · rw [List.filter_filter]
        apply List.filter_congr
        intro r _
        by_cases hrt : r.tornado_id_string = t
        · simp [hrt, hd]
        · simp [List.mem_cons, hrt]
      · apply List.filter_congr
        intro r _
        by_cases hrt : r.tornado_id_string = t
        · simp [hrt, htnr, hd]
        · simp [List.mem_cons, hrt]
    | dropLate =>
      rw [removeRedundantLoop_cons_ok
        (removeRedundantStep_dropLate (hdec.trans hd))]
      rw [ih E (L.filter (fun r => decide (r.tornado_id_string ≠ t))) hndr
        (fun t' ht' => ⟨(hrows' t' ht').1, by
            rw [tornadoRows_drop_other (hne_rest t' ht') L]
            exact (hrows' t' ht').2⟩)
        hnm']
      congr 2
      · apply List.filter_congr
        intro r _
        by_cases hrt : r.tornado_id_string = t
        · simp [hrt, htnr, hd]
        · simp [List.mem_cons, hrt]
      · rw [List.filter_filter]
        apply List.filter_congr
        intro r _
        by_cases hrt : r.tornado_id_string = t
        · simp [hrt, hd]
        · simp [List.mem_cons, hrt]

/-- If some tornado ID still to be processed has mismatching start times, the
loop raises `ValueError`. -/
theorem removeRedundantLoop_mismatch_error [DecidableEq α]
    (E₀ L₀ : List (TornadoToStormRow α β γ)) :
    ∀ (ids : List α) (E L : List (TornadoToStormRow α β γ)),
      ids.Nodup →
      (∀ t ∈ ids, tornadoRows t E = tornadoRows t E₀ ∧
        tornadoRows t L = tornadoRows t L₀) →
      (∃ t ∈ ids, redundantDecision t E₀ L₀ = .mismatch) →
      ∃ e, removeRedundantLoop ids E L = .error e := by
  intro ids
  induction ids with
  | nil =>
    intro E L _ _ hex
    simp at hex
  | cons t rest ih =>
    intro E L hnd hrows hex
    have htmem : t ∈ t :: rest := List.mem_cons_self t rest
    have hdec : redundantDecision t E L = redundantDecision t E₀ L₀ :=
      redundantDecision_congr t (hrows t htmem).1 (hrows t htmem).2
    have hndr : rest.Nodup := (List.nodup_cons.mp hnd).2
    have htnr : t ∉ rest := (List.nodup_cons.mp hnd).1
    have hne_rest : ∀ t' ∈ rest, t' ≠ t := by
      intro t' ht' he
      rw [he] at ht'
      exact htnr ht'
    have hrows' : ∀ t' ∈ rest, tornadoRows t' E = tornadoRows t' E₀ ∧
        tornadoRows t' L = tornadoRows t' L₀ :=
      fun t' ht' => hrows t' (List.mem_cons_of_mem t ht')
    cases hd : redundantDecision t E₀ L₀ with
    | mismatch =>
      exact ⟨_, removeRedundantLoop_cons_error
        (removeRedundantStep_mismatch (hdec.trans hd))⟩
    | keepBoth =>
      obtain ⟨t', ht', hmis⟩ := hex
      have ht'r : t' ∈ rest := by
        rcases List.mem_cons.mp ht' with he | hr
        · rw [he] at hmis; rw [hmis] at hd; exact absurd hd (by simp)
        · exact hr
      rw [removeRedundantLoop_cons_ok
        (removeRedundantStep_keepBoth (hdec.trans hd))]
      exact ih E L hndr hrows' ⟨t', ht'r, hmis⟩
    | dropEarly =>
      obtain ⟨t', ht', hmis⟩ := hex
      have ht'r : t' ∈ rest := by
        rcases List.mem_cons.mp ht' with he | hr
        · rw [he] at hmis; rw [hmis] at hd; exact absurd hd (by simp)
        · exact hr
      rw [removeRedundantLoop_cons_ok
        (removeRedundantStep_dropEarly (hdec.trans hd))]
      exact ih _ L hndr
        (fun t'' ht'' => ⟨by
            rw [tornadoRows_drop_other (hne_rest t'' ht'') E]
            exact (hrows' t'' ht'').1,
          (hrows' t'' ht'').2⟩)
        ⟨t', ht'r, hmis⟩
    | dropLate =>
      obtain ⟨t', ht', hmis⟩ := hex
      have ht'r : t' ∈ rest := by
        rcases List.mem_cons.mp ht' with he | hr
        · rw [he] at hmis; rw [hmis] at hd; exact absurd hd (by simp)
        · exact hr
      rw [removeRedundantLoop_cons_ok
        (removeRedundantStep_dropLate (hdec.trans hd))]
      exact ih E _ hndr
        (fun t'' ht'' => ⟨(hrows' t'' ht'').1, by
            rw [tornadoRows_drop_other (hne_rest t'' ht'') L]
            exact (hrows' t'' ht'').2⟩)
        ⟨t', ht'r, hmis⟩

/-- Rows of one tornado after filtering the table by a predicate on the
tornado ID: all of them survive when the ID passes, none otherwise. -/
theorem tornadoRows_filter_keyPred [DecidableEq α] (t : α)
    (tbl : List (TornadoToStormRow α β γ)) (P : α → Bool) :
    tornadoRows t (tbl.filter (fun r => P r.tornado_id_string)) =
      if P t then tornadoRows t tbl else [] := by
  rw [tornadoRows_filter]
  by_cases h : P t = true
  · rw [if_pos h]
    rw [List.filter_eq_self]
    intro r hr
    have : r.tornado_id_string = t := by
      have := List.of_mem_filter hr
      simpa using this
    rw [this, h]
  · rw [if_neg h]
    rw [List.filter_eq_nil_iff]
    intro r hr
    have : r.tornado_id_string = t := by
      have := List.of_mem_filter hr
      simpa using this
    rw [this]
    simpa using h

/-- Every tornado ID with a row in either table is among the IDs the loop
visits. -/
theorem mem_redundantIds [LinearOrder α] {t : α}
    {E L : List (TornadoToStormRow α β γ)}
    (h : tornadoRows t E ≠ [] ∨ tornadoRows t L ≠ []) :
    t ∈ numpyUnique ((E ++ L).map (fun r => r.tornado_id_string)) := by
  rw [mem_numpyUnique, List.mem_map]
  rcases h with h | h
  · obtain ⟨r, hr⟩ := List.exists_mem_of_ne_nil _ h
    have hmem : r ∈ E := List.mem_of_mem_filter hr
    have htid : r.tornado_id_string = t := by
      have := List.of_mem_filter hr
      simpa using this
    exact ⟨r, List.mem_append_left _ hmem, htid⟩
  · obtain ⟨r, hr⟩ := List.exists_mem_of_ne_nil _ h
    have hmem : r ∈ L := List.mem_of_mem_filter hr
    have htid : r.tornado_id_string = t := by
      have := List.of_mem_filter hr
      simpa using this
    exact ⟨r, List.mem_append_right _ hmem, htid⟩

/-- Top-level characterization of `_remove_redundant_tornado_linkages`: when
no tornado common to both tables has mismatching start times, the call
succeeds and each tornado's rows survive in a period exactly when the
tornado's decision does not drop that period. -/
theorem remove_redundant_tornado_linkages_ok [LinearOrder α]
    (E₀ L₀ : List (TornadoToStormRow α β γ))
    (hnm : ∀ t, tornadoRows t E₀ ≠ [] → tornadoRows t L₀ ≠ [] →
      redundantDecision t E₀ L₀ ≠ .mismatch) :
    remove_redundant_tornado_linkages E₀ L₀ = .ok
      (E₀.filter (fun r =>
        decide (redundantDecision r.tornado_id_string E₀ L₀ ≠ .dropEarly)),
       L₀.filter (fun r =>
        decide (redundantDecision r.tornado_id_string E₀ L₀ ≠ .dropLate))) := by
  have hnmAll : ∀ t, redundantDecision t E₀ L₀ ≠ .mismatch := by
    intro t
    by_cases hE : tornadoRows t E₀ = []
    · rw [redundantDecision_keepBoth_of_absent t (Or.inl hE)]; simp
    by_cases hL : tornadoRows t L₀ = []
    · rw [redundantDecision_keepBoth_of_absent t (Or.inr hL)]; simp
    exact hnm t hE hL
  unfold remove_redundant_tornado_linkages
  rw [removeRedundantLoop_char E₀ L₀ _ E₀ L₀ (numpyUnique_nodup _)
    (fun t _ => ⟨rfl, rfl⟩) (fun t _ => hnmAll t)]
  congr 2
  · apply List.filter_congr
    intro r hr
    have : r.tornado_id_string ∈
        numpyUnique ((E₀ ++ L₀).map (fun r => r.tornado_id_string)) := by
      rw [mem_numpyUnique, List.mem_map]
      exact ⟨r, List.mem_append_left _ hr, rfl⟩
    simp only [List.map_append] at this
    simp [this]
  · apply List.filter_congr
    intro r hr
    have : r.tornado_id_string ∈
        numpyUnique ((E₀ ++ L₀).map (fun r => r.tornado_id_string)) := by
      rw [mem_numpyUnique, List.mem_map]
      exact ⟨r, List.mem_append_right _ hr, rfl⟩
    simp only [List.map_append] at this
    simp [this]

/-- Unfolds the decision for a tornado present in both tables with matching
start times. -/
theorem redundantDecision_of_rows [DecidableEq α] {t : α}
    {E L : List (TornadoToStormRow α β γ)} {er lr : TornadoToStormRow α β γ}
    (hEr : earliestTornadoRow t E = some er)
    (hLr : earliestTornadoRow t L = some lr)
    (hstart : er.unix_time_sec = lr.unix_time_sec) :
    redundantDecision t E L =
      if er.nearest_secondary_id_string.isNone then .dropEarly
      else if lr.nearest_secondary_id_string.isNone then .dropLate
      else if er.linkage_distance_metres ≤ lr.linkage_distance_metres then
        .dropLate
      else .dropEarly := by
  unfold redundantDecision
  rw [hEr, hLr]
  simp [hstart]

/-- The decision is `mismatch` exactly when the tornado is in both tables
with different recorded start times. -/
theorem redundantDecision_mismatch_iff [DecidableEq α] (t : α)
    (E L : List (TornadoToStormRow α β γ)) :
    redundantDecision t E L = .mismatch ↔
      tornadoRows t E ≠ [] ∧ tornadoRows t L ≠ [] ∧
        tornadoStartTime t E ≠ tornadoStartTime t L := by
  unfold redundantDecision tornadoStartTime
  cases hEr : earliestTornadoRow t E with
  | none =>
    simp [(earliestTornadoRow_eq_none_iff t E).mp hEr]
  | some er =>
    cases hLr : earliestTornadoRow t L with
    | none =>
      simp [(earliestTornadoRow_eq_none_iff t L).mp hLr]
    | some lr =>
      have hE : tornadoRows t E ≠ [] := by
        intro hc
        rw [(earliestTornadoRow_eq_none_iff t E).mpr hc] at hEr
        exact Option.noConfusion hEr
      have hL : tornadoRows t L ≠ [] := by
        intro hc
        rw [(earliestTornadoRow_eq_none_iff t L).mpr hc] at hLr
        exact Option.noConfusion hLr
      by_cases htime : er.unix_time_sec = lr.unix_time_sec
      · simp only [htime, ne_eq, not_true_eq_false, if_false, ite_not]
        constructor
        · intro hc
          by_cases h2 : er.nearest_secondary_id_string.isNone <;>
            by_cases h3 : lr.nearest_secondary_id_string.isNone <;>
            by_cases h4 :
              er.linkage_distance_metres ≤ lr.linkage_distance_metres <;>
            simp [h2, h3, h4] at hc
        · intro ⟨_, _, hc⟩
          exact absurd (by simp [htime]) hc
      · simp only [ne_eq, htime, not_false_eq_true, if_true]
        exact ⟨fun _ => ⟨hE, hL, by simp [htime]⟩, fun _ => trivial⟩

/-- When no tornado is common to the two tables, the loop changes nothing
and succeeds. -/
theorem removeRedundantLoop_keepAll [DecidableEq α]
    {E L : List (TornadoToStormRow α β γ)} :
    ∀ ids : List α, (∀ t ∈ ids, redundantDecision t E L = .keepBoth) →
      removeRedundantLoop ids E L = .ok (E, L) := by
  intro ids
  induction ids with
  | nil => intro _; rfl
  | cons t rest ih =>
    intro h
    rw [removeRedundantLoop_cons_ok
      (removeRedundantStep_keepBoth (h t (List.mem_cons_self t rest)))]
    exact ih (fun t' ht' => h t' (List.mem_cons_of_mem t ht'))

/-- C6: for every pair of early/late tornado-to-storm tables and every
tornado present in both (with matching start times, and no start-time
mismatch anywhere), `_remove_redundant_tornado_linkages` keeps that
tornado's rows only in the period with the smaller linkage distance at the
tornado's earliest row, dropping all its rows from the other period; a tie
(`early ≤ late`) keeps the earlier period; and when exactly one period has
a linkage (non-null secondary ID), the unlinked period's rows are all
dropped. -/
theorem c6_redundant_removal_keeps_smaller_distance [LinearOrder α]
    (E₀ L₀ : List (TornadoToStormRow α β γ)) (t : α)
    (er lr : TornadoToStormRow α β γ)
    (hEr : earliestTornadoRow t E₀ = some er)
    (hLr : earliestTornadoRow t L₀ = some lr)
    (hstart : er.unix_time_sec = lr.unix_time_sec)
    (hnm : ∀ t', tornadoRows t' E₀ ≠ [] → tornadoRows t' L₀ ≠ [] →
      redundantDecision t' E₀ L₀ ≠ .mismatch) :
    ∃ E' L', remove_redundant_tornado_linkages E₀ L₀ = .ok (E', L') ∧
      (er.nearest_secondary_id_string ≠ none →
        lr.nearest_secondary_id_string ≠ none →
        er.linkage_distance_metres ≤ lr.linkage_distance_metres →
        tornadoRows t E' = tornadoRows t E₀ ∧ tornadoRows t L' = []) ∧
      (er.nearest_secondary_id_string ≠ none →
        lr.nearest_secondary_id_string ≠ none →
        lr.linkage_distance_metres < er.linkage_distance_metres →
        tornadoRows t E' = [] ∧ tornadoRows t L' = tornadoRows t L₀) ∧
      (er.nearest_secondary_id_string = none →
        tornadoRows t E' = [] ∧ tornadoRows t L' = tornadoRows t L₀) ∧
      (er.nearest_secondary_id_string ≠ none →
        lr.nearest_secondary_id_string = none →
        tornadoRows t E' = tornadoRows t E₀ ∧ tornadoRows t L' = []) := by
  refine ⟨_, _, remove_redundant_tornado_linkages_ok E₀ L₀ hnm, ?_, ?_, ?_, ?_⟩
  · intro hern hlrn hle
    have hd : redundantDecision t E₀ L₀ = .dropLate := by
      rw [redundantDecision_of_rows hEr hLr hstart]
      simp [Option.isNone_iff_eq_none, hern, hlrn, hle]
    constructor
    · rw [tornadoRows_filter_keyPred t E₀
        (fun a => decide (redundantDecision a E₀ L₀ ≠ .dropEarly))]
      simp [hd]
    · rw [tornadoRows_filter_keyPred t L₀
        (fun a => decide (redundantDecision a E₀ L₀ ≠ .dropLate))]
      simp [hd]
  · intro hern hlrn hlt
    have hd : redundantDecision t E₀ L₀ = .dropEarly := by
      rw [redundantDecision_of_rows hEr hLr hstart]
      simp [Option.isNone_iff_eq_none, hern, hlrn, not_le.mpr hlt]
    constructor
    · rw [tornadoRows_filter_keyPred t E₀
        (fun a => decide (redundantDecision a E₀ L₀ ≠ .dropEarly))]
      simp [hd]
    · rw [tornadoRows_filter_keyPred t L₀
        (fun a => decide (redundantDecision a E₀ L₀ ≠ .dropLate))]
      simp [hd]
  · intro hern
    have hd : redundantDecision t E₀ L₀ = .dropEarly := by
      rw [redundantDecision_of_rows hEr hLr hstart]
      simp [Option.isNone_iff_eq_none, hern]
    constructor
    · rw [tornadoRows_filter_keyPred t E₀
        (fun a => decide (redundantDecision a E₀ L₀ ≠ .dropEarly))]
      simp [hd]
    · rw [tornadoRows_filter_keyPred t L₀
        (fun a => decide (redundantDecision a E₀ L₀ ≠ .dropLate))]
      simp [hd]
  · intro hern hlrn
    have hd : redundantDecision t E₀ L₀ = .dropLate := by
      rw [redundantDecision_of_rows hEr hLr hstart]
      simp [Option.isNone_iff_eq_none, hern, hlrn]
    constructor
    · rw [tornadoRows_filter_keyPred t E₀
        (fun a => decide (redundantDecision a E₀ L₀ ≠ .dropEarly))]
      simp [hd]
    · rw [tornadoRows_filter_keyPred t L₀
        (fun a => decide (redundantDecision a E₀ L₀ ≠ .dropLate))]
      simp [hd]

/-- Concrete early table for exercising C6: one tornado (ID 0) whose earliest
row is linked at distance 5. -/
def c6WitnessEarly : List (TornadoToStormRow ℕ ℕ ℕ) :=
  [⟨0, 10, some 1, 5, 0⟩]

/-- Concrete late table for exercising C6: the same tornado linked at the
smaller distance 3. -/
def c6WitnessLate : List (TornadoToStormRow ℕ ℕ ℕ) :=
  [⟨0, 10, some 2, 3, 0⟩]

theorem c6_witness :
    ∃ E' L', remove_redundant_tornado_linkages c6WitnessEarly c6WitnessLate =
        .ok (E', L') ∧
      ((⟨0, 10, some 1, 5, 0⟩ :
          TornadoToStormRow ℕ ℕ ℕ).nearest_secondary_id_string ≠ none →
        (⟨0, 10, some 2, 3, 0⟩ :
          TornadoToStormRow ℕ ℕ ℕ).nearest_secondary_id_string ≠ none →
        (⟨0, 10, some 1, 5, 0⟩ :
          TornadoToStormRow ℕ ℕ ℕ).linkage_distance_metres ≤
          (⟨0, 10, some 2, 3, 0⟩ :
            TornadoToStormRow ℕ ℕ ℕ).linkage_distance_metres →
        tornadoRows 0 E' = tornadoRows 0 c6WitnessEarly ∧
          tornadoRows 0 L' = []) ∧
      ((⟨0, 10, some 1, 5, 0⟩ :
          TornadoToStormRow ℕ ℕ ℕ).nearest_secondary_id_string ≠ none →
        (⟨0, 10, some 2, 3, 0⟩ :
          TornadoToStormRow ℕ ℕ ℕ).nearest_secondary_id_string ≠ none →
        (⟨0, 10, some 2, 3, 0⟩ :
          TornadoToStormRow ℕ ℕ ℕ).linkage_distance_metres <
          (⟨0, 10, some 1, 5, 0⟩ :
            TornadoToStormRow ℕ ℕ ℕ).linkage_distance_metres →
        tornadoRows 0 E' = [] ∧
          tornadoRows 0 L' = tornadoRows 0 c6WitnessLate) ∧
      ((⟨0, 10, some 1, 5, 0⟩ :
          TornadoToStormRow ℕ ℕ ℕ).nearest_secondary_id_string = none →
        tornadoRows 0 E' = [] ∧
          tornadoRows 0 L' = tornadoRows 0 c6WitnessLate) ∧
      ((⟨0, 10, some 1, 5, 0⟩ :
          TornadoToStormRow ℕ ℕ ℕ).nearest_secondary_id_string ≠ none →
        (⟨0, 10, some 2, 3, 0⟩ :
          TornadoToStormRow ℕ ℕ ℕ).nearest_secondary_id_string = none →
        tornadoRows 0 E' = tornadoRows 0 c6WitnessEarly ∧
          tornadoRows 0 L' = []) := by
  have hEr : earliestTornadoRow 0 c6WitnessEarly =
      some ⟨0, 10, some 1, 5, 0⟩ := rfl
  have hLr : earliestTornadoRow 0 c6WitnessLate =
      some ⟨0, 10, some 2, 3, 0⟩ := rfl
  refine c6_redundant_removal_keeps_smaller_distance c6WitnessEarly
    c6WitnessLate 0 _ _ hEr hLr rfl ?_
  intro t' h1 _ hc
  have ht : t' = 0 := by
    rcases List.exists_mem_of_ne_nil _ h1 with ⟨r, hr⟩
    have htid := List.of_mem_filter hr
    have hrm : r ∈ c6WitnessEarly := List.mem_of_mem_filter hr
    simp only [c6WitnessEarly, List.mem_singleton] at hrm
    subst hrm
    simp only [decide_eq_true_eq] at htid
    exact htid.symm
  subst ht
  rw [redundantDecision_of_rows hEr hLr rfl] at hc
  norm_num at hc
  exact RedundantDecision.noConfusion hc

/-- C7: `_remove_redundant_tornado_linkages` is idempotent; applying it a
second time to the pair of tables it returned yields exactly the same pair.
(After the first pass no tornado ID is common to both tables any more, so
the second pass takes the `continue` branch for every ID.) -/
theorem c7_redundant_removal_idempotent [LinearOrder α]
    {E L E' L' : List (TornadoToStormRow α β γ)}
    (h : remove_redundant_tornado_linkages E L = .ok (E', L')) :
    remove_redundant_tornado_linkages E' L' = .ok (E', L') := by
  have hnm : ∀ t, tornadoRows t E ≠ [] → tornadoRows t L ≠ [] →
      redundantDecision t E L ≠ .mismatch := by
    intro t hE hL hc
    obtain ⟨e, herr⟩ := removeRedundantLoop_mismatch_error E L
      (numpyUnique ((E ++ L).map (fun r => r.tornado_id_string))) E L
      (numpyUnique_nodup _) (fun t' _ => ⟨rfl, rfl⟩)
      ⟨t, mem_redundantIds (Or.inl hE), hc⟩
    unfold remove_redundant_tornado_linkages at h
    rw [herr] at h
    exact Except.noConfusion h
  rw [remove_redundant_tornado_linkages_ok E L hnm] at h
  simp only [Except.ok.injEq, Prod.mk.injEq] at h
  obtain ⟨hE', hL'⟩ := h
  have hkeep : ∀ t, redundantDecision t E' L' = .keepBoth := by
    intro t
    by_cases hE'e : tornadoRows t E' = []
    · exact redundantDecision_keepBoth_of_absent t (Or.inl hE'e)
    by_cases hL'e : tornadoRows t L' = []
    · exact redundantDecision_keepBoth_of_absent t (Or.inr hL'e)
    exfalso
    rw [← hE', tornadoRows_filter_keyPred t E
      (fun a => decide (redundantDecision a E L ≠ .dropEarly))] at hE'e
    rw [← hL', tornadoRows_filter_keyPred t L
      (fun a => decide (redundantDecision a E L ≠ .dropLate))] at hL'e
    by_cases hdE : redundantDecision t E L = .dropEarly
    · rw [if_neg (by simp [hdE])] at hE'e
      exact hE'e rfl
    by_cases hdL : redundantDecision t E L = .dropLate
    · rw [if_neg (by simp [hdL])] at hL'e
      exact hL'e rfl
    rw [if_pos (by simp [hdE])] at hE'e
    rw [if_pos (by simp [hdL])] at hL'e
    have hkb := redundantDecision_ne_keepBoth_of_common t hE'e hL'e
    have hmm := hnm t hE'e hL'e
    cases hd : redundantDecision t E L
    · exact hkb hd
    · exact hdE hd
    · exact hdL hd
    · exact hmm hd
  unfold remove_redundant_tornado_linkages
  exact removeRedundantLoop_keepAll _
    (fun t _ => hkeep t)

/-- Concrete early table for exercising C7. -/
def c7WitnessEarly : List (TornadoToStormRow ℕ ℕ ℕ) :=
  [⟨0, 10, some 1, 5, 0⟩]

/-- Concrete late table for exercising C7: the same tornado, linked farther
away, so the first pass drops the late rows. -/
def c7WitnessLate : List (TornadoToStormRow ℕ ℕ ℕ) :=
  [⟨0, 10, some 2, 7, 0⟩]

theorem c7_witness :
    remove_redundant_tornado_linkages c7WitnessEarly ([] :
      List (TornadoToStormRow ℕ ℕ ℕ)) = .ok (c7WitnessEarly, []) :=
  @c7_redundant_removal_idempotent ℕ ℕ ℕ _ c7WitnessEarly c7WitnessLate
    c7WitnessEarly []
    (by norm_num [remove_redundant_tornado_linkages, removeRedundantLoop,
      removeRedundantStep, redundantDecision, earliestTornadoRow, tornadoRows,
      numpyArgminFirst, numpyUnique, List.dedup, List.insertionSort,
      List.orderedInsert, c7WitnessEarly, c7WitnessLate])

/-- C8: `_remove_redundant_tornado_linkages` raises a `ValueError` if and only
if some tornado ID appears in both the early and the late table with
different recorded start times (earliest event times); with no such mismatch
it never raises. -/
theorem c8_redundant_removal_raises_iff_start_mismatch [LinearOrder α]
    (E L : List (TornadoToStormRow α β γ)) :
    (∃ e, remove_redundant_tornado_linkages E L = .error e) ↔
      ∃ t, tornadoRows t E ≠ [] ∧ tornadoRows t L ≠ [] ∧
        tornadoStartTime t E ≠ tornadoStartTime t L := by
  constructor
  · rintro ⟨e, herr⟩
    by_contra hno
    push_neg at hno
    have hnm : ∀ t, tornadoRows t E ≠ [] → tornadoRows t L ≠ [] →
        redundantDecision t E L ≠ .mismatch := by
      intro t h1 h2 hc
      obtain ⟨_, _, h3⟩ := (redundantDecision_mismatch_iff t E L).mp hc
      exact h3 (hno t h1 h2)
    rw [remove_redundant_tornado_linkages_ok E L hnm] at herr
    exact Except.noConfusion herr
  · rintro ⟨t, h1, h2, h3⟩
    have hmis : redundantDecision t E L = .mismatch :=
      (redundantDecision_mismatch_iff t E L).mpr ⟨h1, h2, h3⟩
    obtain ⟨e, herr⟩ := removeRedundantLoop_mismatch_error E L
      (numpyUnique ((E ++ L).map (fun r => r.tornado_id_string))) E L
      (numpyUnique_nodup _) (fun t' _ => ⟨rfl, rfl⟩)
      ⟨t, mem_redundantIds (Or.inl h1), hmis⟩
    refine ⟨e, ?_⟩
    unfold remove_redundant_tornado_linkages
    exact herr

/-! ## Persistence: `write_linkage_file` / `read_linkage_file`
(linkage.py lines 2819-2906) -/

/-- The column names of linkage.py that the persistence layer inspects
(REQUIRED_STORM_COLUMNS, the wind/tornado linkage columns, and the
merging-predecessor flag).  In the source these are Python strings; here an
enumerated type with one constructor per column name. -/
inductive ColumnName : Type
  | primary_id_string : ColumnName
  | secondary_id_string : ColumnName
  | full_id_string : ColumnName
  | valid_time_unix_sec : ColumnName
  | first_prev_secondary_id_string : ColumnName
  | second_prev_secondary_id_string : ColumnName
  | first_next_secondary_id_string : ColumnName
  | second_next_secondary_id_string : ColumnName
  | tracking_start_time_unix_sec : ColumnName
  | tracking_end_time_unix_sec : ColumnName
  | cell_start_time_unix_sec : ColumnName
  | cell_end_time_unix_sec : ColumnName
  | centroid_latitude_deg : ColumnName
  | centroid_longitude_deg : ColumnName
  | polygon_object_latlng_deg : ColumnName
  | linkage_distances_metres : ColumnName
  | relative_event_times_sec : ColumnName
  | event_latitudes_deg : ColumnName
  | event_longitudes_deg : ColumnName
  | main_object_flags : ColumnName
  | merging_predecessor_flag : ColumnName
  | wind_station_ids : ColumnName
  | u_winds_m_s01 : ColumnName
  | v_winds_m_s01 : ColumnName
  | f_or_ef_scale_ratings : ColumnName
  | tornado_id_strings : ColumnName
  deriving DecidableEq

/-- REQUIRED_STORM_COLUMNS (linkage.py lines 56-69). -/
def REQUIRED_STORM_COLUMNS : List ColumnName :=
  [.primary_id_string, .secondary_id_string, .full_id_string,
   .valid_time_unix_sec,
   .first_prev_secondary_id_string, .second_prev_secondary_id_string,
   .first_next_secondary_id_string, .second_next_secondary_id_string,
   .tracking_start_time_unix_sec, .tracking_end_time_unix_sec,
   .cell_start_time_unix_sec, .cell_end_time_unix_sec,
   .centroid_latitude_deg, .centroid_longitude_deg,
   .polygon_object_latlng_deg]

/-- THESE_COLUMNS (linkage.py lines 108-112), shared by both event types. -/
def SHARED_LINKAGE_COLUMNS : List ColumnName :=
  [.linkage_distances_metres, .relative_event_times_sec,
   .event_latitudes_deg, .event_longitudes_deg, .main_object_flags,
   .merging_predecessor_flag]

/-- REQUIRED_WIND_LINKAGE_COLUMNS (linkage.py line 122). -/
def REQUIRED_WIND_LINKAGE_COLUMNS : List ColumnName :=
  REQUIRED_STORM_COLUMNS ++ SHARED_LINKAGE_COLUMNS ++
    [.wind_station_ids, .u_winds_m_s01, .v_winds_m_s01]

/-- REQUIRED_TORNADO_LINKAGE_COLUMNS (linkage.py lines 123-125). -/
def REQUIRED_TORNADO_LINKAGE_COLUMNS : List ColumnName :=
  REQUIRED_STORM_COLUMNS ++ SHARED_LINKAGE_COLUMNS ++
    [.f_or_ef_scale_ratings, .tornado_id_strings]

/-- The metadata dict built by `_check_input_args` (linkage.py lines 186-192):
one field per key. -/
structure MetadataDict : Type where
  max_time_before_storm_start_sec : ℤ
  max_time_after_storm_end_sec : ℤ
  storm_interp_time_interval_sec : ℤ
  bounding_box_padding_metres : ℚ
  max_link_distance_metres : ℚ
  deriving DecidableEq

/-- The fixed metadata dict that `read_linkage_file` builds (linkage.py lines
2893-2904): all default config values, with the interpolation interval and
max distance chosen by whether the table has tornado columns. -/
def defaultReadMetadata (tornado : Bool) : MetadataDict :=
  { max_time_before_storm_start_sec := 300
    max_time_after_storm_end_sec := 300
    storm_interp_time_interval_sec := if tornado then 1 else 10
    bounding_box_padding_metres := 100000
    max_link_distance_metres := 30000 }

/-- A storm-to-events table as the persistence layer sees it: the set of
column names present, plus the (persistence-opaque) cell contents `δ`. -/
structure PersistedTable (δ : Type) : Type where
  columns : List ColumnName
  data : δ

/-- `assert_columns_in_dataframe`: true when every required column is
present. -/
def hasColumns {δ : Type} (tbl : PersistedTable δ) (req : List ColumnName) :
    Bool :=
  req.all (fun c => decide (c ∈ tbl.columns))

/-- The on-disk contents of a linkage file: the three objects pickled in
sequence by `write_linkage_file`.  Modelled from the spec: the `pickle`
module (Python standard library) is taken to round-trip each object
faithfully. -/
structure LinkageFile (δ τ : Type) : Type where
  storm_to_events_table : PersistedTable δ
  metadata_dict : MetadataDict
  tornado_to_storm_table : Option τ

/-- `write_linkage_file` (linkage.py lines 2819-2850): asserts the table has
the wind linkage columns, falling back to the tornado linkage columns
(raising when it has neither), then pickles the three objects in
sequence. -/
def write_linkage_file {δ τ : Type} (storm_to_events_table : PersistedTable δ)
    (metadata_dict : MetadataDict) (tornado_to_storm_table : Option τ) :
    Except String (LinkageFile δ τ) :=
  if hasColumns storm_to_events_table REQUIRED_WIND_LINKAGE_COLUMNS ∨
      hasColumns storm_to_events_table REQUIRED_TORNADO_LINKAGE_COLUMNS then
    .ok ⟨storm_to_events_table, metadata_dict, tornado_to_storm_table⟩
  else .error "Expected columns are missing from pandas DataFrame."

/-- `read_linkage_file` (linkage.py lines 2853-2906): unpickles the table;
adds a `merging_predecessor_flag` column when missing (the source fills it
with False; the cell contents are opaque here); unpickles the remaining two
objects; then DISCARDS the unpickled metadata dict and replaces it with the
default config values (lines 2898-2904), keyed on whether the table has the
wind or the tornado linkage columns (raising when neither). -/
def read_linkage_file {δ τ : Type} (f : LinkageFile δ τ) :
    Except String (PersistedTable δ × MetadataDict × Option τ) :=
  let tbl :=
    if ColumnName.merging_predecessor_flag ∈ f.storm_to_events_table.columns
    then f.storm_to_events_table
    else { f.storm_to_events_table with
           columns := f.storm_to_events_table.columns ++
             [ColumnName.merging_predecessor_flag] }
  if hasColumns tbl REQUIRED_WIND_LINKAGE_COLUMNS then
    .ok (tbl, defaultReadMetadata false, f.tornado_to_storm_table)
  else if hasColumns tbl REQUIRED_TORNADO_LINKAGE_COLUMNS then
    .ok (tbl, defaultReadMetadata true, f.tornado_to_storm_table)
  else .error "Expected columns are missing from pandas DataFrame."

/-- A wind storm-to-events table with all required wind linkage columns. -/
def c9WitnessTable : PersistedTable ℕ :=
  ⟨REQUIRED_WIND_LINKAGE_COLUMNS, 0⟩

/-- A metadata dict differing from the defaults (max link distance 10000
instead of 30000). -/
def c9WitnessMetadata : MetadataDict :=
  { max_time_before_storm_start_sec := 300
    max_time_after_storm_end_sec := 300
    storm_interp_time_interval_sec := 10
    bounding_box_padding_metres := 100000
    max_link_distance_metres := 10000 }

/-- C9 (code bug): the persistence round trip does NOT preserve the
configuration metadata.  `read_linkage_file` unpickles the metadata dict
that `write_linkage_file` wrote and then overwrites it with default config
values, so reading back a file written with a non-default metadata dict
returns a different dict, contradicting the function's own documentation
(":return: metadata_dict: Same."). -/
theorem c9_metadata_not_roundtripped :
    write_linkage_file c9WitnessTable c9WitnessMetadata (none : Option ℕ) =
      .ok ⟨c9WitnessTable, c9WitnessMetadata, none⟩ ∧
    read_linkage_file
        (⟨c9WitnessTable, c9WitnessMetadata, none⟩ : LinkageFile ℕ ℕ) =
      .ok (c9WitnessTable, defaultReadMetadata false, none) ∧
    defaultReadMetadata false ≠ c9WitnessMetadata := by
  refine ⟨?_, ?_, ?_⟩
  · rfl
  · rfl
  · intro h
    have := congrArg MetadataDict.max_link_distance_metres h
    norm_num [defaultReadMetadata, c9WitnessMetadata] at this

/-! ## Storm lineage graph: predecessor queries
(`temporal_tracking` is a repository module absent from src/, so its graph
walk is modelled from the spec; `_find_predecessors` below is translated
from linkage.py lines 1306-1360.) -/

/-- The graph columns of one storm object (one row of a storm-object table).
`σ` is the type of secondary ID strings. -/
structure StormObjectRow (σ : Type) : Type where
  secondary_id_string : σ
  valid_time_unix_sec : ℤ
  first_prev_secondary_id_string : Option σ
  second_prev_secondary_id_string : Option σ
  first_next_secondary_id_string : Option σ
  second_next_secondary_id_string : Option σ

variable {σ : Type}

/-- The zero, one or two predecessor secondary IDs recorded on a row. -/
def prevSecondaryIds (r : StormObjectRow σ) : List σ :=
  [r.first_prev_secondary_id_string,
   r.second_prev_secondary_id_string].filterMap id

/-- The zero, one or two successor secondary IDs recorded on a row. -/
def nextSecondaryIds (r : StormObjectRow σ) : List σ :=
  [r.first_next_secondary_id_string,
   r.second_next_secondary_id_string].filterMap id

/-- Modelled from the spec: `temporal_tracking.find_immediate_predecessors`
(absent from src/).  Spec 4.1: it returns "only directly linked rows (no
transitive walk)".  For each predecessor secondary ID recorded on the target
row, the row of that cell nearest in time strictly before the target row
(first row on ties). -/
def find_immediate_predecessors [DecidableEq σ] (tbl : List (StormObjectRow σ))
    (target_row : ℕ) : List ℕ :=
  match tbl[target_row]? with
  | none => []
  | some r =>
    (prevSecondaryIds r).filterMap (fun p =>
      numpyArgminFirst
        (fun j => -(tbl[j]?.elim 0 (fun q => q.valid_time_unix_sec)))
        ((List.range tbl.length).filter (fun j =>
          tbl[j]?.elim false (fun q =>
            decide (q.secondary_id_string = p) &&
            decide (q.valid_time_unix_sec < r.valid_time_unix_sec)))))

/-- Modelled from the spec: `temporal_tracking.find_immediate_successors`
(absent from src/), the time-forward symmetric operation. -/
def find_immediate_successors [DecidableEq σ] (tbl : List (StormObjectRow σ))
    (target_row : ℕ) : List ℕ :=
  match tbl[target_row]? with
  | none => []
  | some r =>
    (nextSecondaryIds r).filterMap (fun p =>
      numpyArgminFirst
        (fun j => tbl[j]?.elim 0 (fun q => q.valid_time_unix_sec))
        ((List.range tbl.length).filter (fun j =>
          tbl[j]?.elim false (fun q =>
            decide (q.secondary_id_string = p) &&
            decide (r.valid_time_unix_sec < q.valid_time_unix_sec)))))

/-- The `change_type_string` argument of the graph walk
(`temporal_tracking.ANY_CHANGE_STRING` / `MERGER_STRING` /
`SPLIT_STRING`). -/
inductive ChangeTypeString : Type
  | any_change : ChangeTypeString
  | merger : ChangeTypeString
  | split : ChangeTypeString
  deriving DecidableEq

/-- How much one backward step from row `child` to its immediate predecessor
row `parent` costs against `max_num_sec_id_changes`: nothing within one
secondary ID; otherwise one secondary-ID change, counted when its type
matches the filter.  A change into a row with two recorded predecessor IDs
is a merger; a change out of a row with two recorded successor IDs is a
split. -/
def secondaryIdChangeCost [DecidableEq σ] (child parent : StormObjectRow σ)
    (change_type : ChangeTypeString) : ℕ :=
  if child.secondary_id_string = parent.secondary_id_string then 0
  else
    match change_type with
    | .any_change => 1
    | .merger => if (prevSecondaryIds child).length = 2 then 1 else 0
    | .split => if (nextSecondaryIds parent).length = 2 then 1 else 0

/-- The recursive backward walk, collecting every row on an admissible path
(the `return_all_on_path=True` mode, the only one linkage.py's
`_find_predecessors` uses).  `fuel` bounds the recursion depth; each step
moves strictly backward in time, so `tbl.length` steps suffice. -/
def findPredecessorsAux [DecidableEq σ] (tbl : List (StormObjectRow σ))
    (t0 num_seconds_back : ℤ) (change_type : ChangeTypeString) :
    ℕ → ℕ → ℕ → List ℕ
  | 0, _, _ => []
  | fuel + 1, i, budget =>
    i :: ((find_immediate_predecessors tbl i).flatMap (fun j =>
      match tbl[i]?, tbl[j]? with
      | some ri, some rj =>
        if t0 - rj.valid_time_unix_sec > num_seconds_back then []
        else
          let cost := secondaryIdChangeCost ri rj change_type
          if cost ≤ budget then
            findPredecessorsAux tbl t0 num_seconds_back change_type fuel j
              (budget - cost)
          else []
      | _, _ => []))

/-- Modelled from the spec: `temporal_tracking.find_predecessors` (absent
from src/).  Spec 4.1: "ordered set of row indices reachable by walking
predecessor links backward in time, bounded by elapsed seconds and/or number
of secondary-ID changes encountered, optionally restricted to only 'merger'
or only 'split' type changes"; the start row is included since linkage.py
always passes `return_all_on_path=True` (spec 8: "including the start row
only when return_all_on_path is requested"). -/
def temporal_tracking_find_predecessors [DecidableEq σ]
    (tbl : List (StormObjectRow σ)) (target_row : ℕ)
    (num_seconds_back : ℤ) (max_num_sec_id_changes : ℕ)
    (change_type : ChangeTypeString) : List ℕ :=
  match tbl[target_row]? with
  | none => []
  | some r =>
    findPredecessorsAux tbl r.valid_time_unix_sec num_seconds_back
      change_type tbl.length target_row max_num_sec_id_changes

/-- LARGE_INTEGER (linkage.py line 36). -/
def LARGE_INTEGER : ℤ := 10 ^ 10

/-- `_find_predecessors` (linkage.py lines 1306-1360).  Runs the bounded walk
three times: at most one change of any type; zero merger-type changes; at
most one merger-type change.  Simple predecessors are the first set
intersected with the second; merging predecessors are the third set
intersected with the first, minus the simple predecessors.  The source turns
the numpy arrays into Python sets before the set algebra, so the results are
modelled as `Finset`s. -/
def find_predecessors [DecidableEq σ] (storm_to_events_table :
    List (StormObjectRow σ)) (target_row : ℕ) : Finset ℕ × Finset ℕ :=
  let predecessor_rows_one_change :=
    (temporal_tracking_find_predecessors storm_to_events_table target_row
      LARGE_INTEGER 1 .any_change).toFinset
  let predecessor_rows_zero_mergers :=
    (temporal_tracking_find_predecessors storm_to_events_table target_row
      LARGE_INTEGER 0 .merger).toFinset
  let simple_predecessor_rows :=
    predecessor_rows_one_change ∩ predecessor_rows_zero_mergers
  let predecessor_rows_one_merger :=
    (temporal_tracking_find_predecessors storm_to_events_table target_row
      LARGE_INTEGER 1 .merger).toFinset
  let merging_predecessor_rows :=
    (predecessor_rows_one_merger ∩ predecessor_rows_one_change) \
      simple_predecessor_rows
  (simple_predecessor_rows, merging_predecessor_rows)

/-- C3: for every storm-object table and every target row, the
simple-predecessor and merging-predecessor row sets returned by
`_find_predecessors` are disjoint.  (Merging predecessors are built by
subtracting the simple predecessors, so the exclusion is structural.) -/
theorem c3_simple_and_merging_predecessors_disjoint [DecidableEq σ]
    (storm_to_events_table : List (StormObjectRow σ)) (target_row : ℕ) :
    Disjoint (find_predecessors storm_to_events_table target_row).1
      (find_predecessors storm_to_events_table target_row).2 := by
  unfold find_predecessors
  exact Finset.sdiff_disjoint.symm

/-! ## Planar geometry
(`polygons` is a repository module absent from src/; its containment test is
modelled from the spec over exact rational coordinates.) -/

/-- Whether point `p` lies on the closed segment from `a` to `b`:
collinear (zero cross product) and within the segment's bounding box. -/
def pointOnSegment (a b p : ℚ × ℚ) : Bool :=
  decide ((b.1 - a.1) * (p.2 - a.2) - (b.2 - a.2) * (p.1 - a.1) = 0) &&
  decide (min a.1 b.1 ≤ p.1) && decide (p.1 ≤ max a.1 b.1) &&
  decide (min a.2 b.2 ≤ p.2) && decide (p.2 ≤ max a.2 b.2)

/-- The edges of a polygon given by parallel vertex-coordinate arrays,
closing the ring (each vertex paired with its cyclic successor). -/
def polygonEdges (xs ys : List ℚ) : List ((ℚ × ℚ) × (ℚ × ℚ)) :=
  (xs.zip ys).zip ((xs.zip ys).rotate 1)

/-- Whether the point lies on the polygon's boundary. -/
def pointOnPolygonBoundary (xs ys : List ℚ) (px py : ℚ) : Bool :=
  (polygonEdges xs ys).any (fun e => pointOnSegment e.1 e.2 (px, py))

/-- Whether one polygon edge crosses the horizontal ray running rightward
from the query point (standard even-odd rule test; when the guard on the
y-coordinates holds the two y-values differ, so the division is by a
nonzero rational). -/
def edgeCrossesRay (a b : ℚ × ℚ) (px py : ℚ) : Bool :=
  decide ((py < a.2) ≠ (py < b.2)) &&
  decide (px < a.1 + (py - a.2) * (b.1 - a.1) / (b.2 - a.2))

/-- How many of the given edges the rightward ray from the query point
crosses. -/
def countRayCrossings (px py : ℚ) : List ((ℚ × ℚ) × (ℚ × ℚ)) → ℕ
  | [] => 0
  | e :: es =>
    (if edgeCrossesRay e.1 e.2 px py then 1 else 0) +
      countRayCrossings px py es

/-- Whether the rightward ray from the query point crosses the polygon's
edges an odd number of times (even-odd interior rule, valid for query points
off the boundary). -/
def crossingNumberOdd (xs ys : List ℚ) (px py : ℚ) : Bool :=
  decide (countRayCrossings px py (polygonEdges xs ys) % 2 = 1)

/-- Modelled from the spec: `polygons.point_in_or_on_polygon` (absent from
src/).  Spec 4.2: the point-in-polygon test "must treat boundary as inside
('in or on')".  Boundary points count as contained; off-boundary points are
contained when the even-odd rule says so. -/
def point_in_or_on_polygon (xs ys : List ℚ) (px py : ℚ) : Bool :=
  pointOnPolygonBoundary xs ys px py || crossingNumberOdd xs ys px py

/-- Strict interior: contained by the even-odd rule and not on the
boundary. -/
def pointStrictlyInPolygon (xs ys : List ℚ) (px py : ℚ) : Bool :=
  !pointOnPolygonBoundary xs ys px py && crossingNumberOdd xs ys px py

theorem point_in_or_on_of_strictly_in {xs ys : List ℚ} {px py : ℚ}
    (h : pointStrictlyInPolygon xs ys px py = true) :
    point_in_or_on_polygon xs ys px py = true := by
  unfold pointStrictlyInPolygon at h
  unfold point_in_or_on_polygon
  rcases Bool.and_eq_true_iff.mp h with ⟨_, h2⟩
  rw [h2, Bool.or_true]

/-! ## Nearest-storm matcher: `_find_nearest_storms_one_time`
(linkage.py lines 682-824) -/

/-- One row of the interpolated-vertex table built by
`_interp_storms_in_time`: one vertex of one interpolated storm outline. -/
structure InterpVertexRow (σ : Type) : Type where
  secondary_id_string : σ
  vertex_x_metres : ℚ
  vertex_y_metres : ℚ

/-- The polygon of one storm in an interpolated-vertex table
(`polygons.vertex_arrays_to_polygon_object` applied to the storm's vertex
rows in table order; the polygon object is just the coordinate arrays
here). -/
def polygonOfStorm [DecidableEq σ] (tbl : List (InterpVertexRow σ)) (s : σ) :
    List ℚ × List ℚ :=
  let rows := tbl.filter (fun v => decide (v.secondary_id_string = s))
  (rows.map (fun v => v.vertex_x_metres),
   rows.map (fun v => v.vertex_y_metres))

/-- The containment test the matcher runs for candidate storm `s`. -/
def containsEvent [DecidableEq σ] (tbl : List (InterpVertexRow σ)) (s : σ)
    (ex ey : ℚ) : Bool :=
  point_in_or_on_polygon (polygonOfStorm tbl s).1 (polygonOfStorm tbl s).2
    ex ey

/-- Whether a vertex row lies in the axis-aligned box of half-width `d`
around the event (the coarse `numpy.where` filters of the source). -/
def vertexInBox (ex ey d : ℚ) (v : InterpVertexRow σ) : Bool :=
  decide (|ex - v.vertex_x_metres| ≤ d) && decide (|ey - v.vertex_y_metres| ≤ d)

/-- The squared Euclidean distance from the event to a vertex.  The source
compares `sqrt(dx^2+dy^2)` against `max_link_distance_metres` and minimizes
it; squaring both sides keeps every comparison, the argmin and zero-ness
intact (the square root is strictly monotone on nonnegative reals and the
upstream validation makes the threshold nonnegative), while staying inside
the rationals. -/
def vertexDistSq (ex ey : ℚ) (v : InterpVertexRow σ) : ℚ :=
  (ex - v.vertex_x_metres) ^ 2 + (ey - v.vertex_y_metres) ^ 2

/-- The candidate secondary IDs for the containment attempt: the sorted
unique IDs of the vertices inside the polygon-attempt box
(`numpy.unique` over the box-filtered vertex rows). -/
def candidateIds [LinearOrder σ] (tbl : List (InterpVertexRow σ))
    (ex ey attempt : ℚ) : List σ :=
  numpyUnique ((tbl.filter (vertexInBox ex ey attempt)).map
    (fun v => v.secondary_id_string))

/-- The body of the per-event loop of `_find_nearest_storms_one_time`
(linkage.py lines 724-822).  Returns the nearest secondary ID (`none` when
the event stays unlinked) and the linkage distance (squared; `none` models
NaN).  Phase 1 filters vertices by the polygon-attempt box and links to the
first candidate ID (in sorted unique order) whose polygon contains the
event, at distance 0.  Phase 2 re-filters by the max-link box, takes the
vertex with the smallest distance, and links to its storm - at distance 0
when that storm's polygon turns out to contain the event after all, else at
the minimum distance; when every such distance exceeds the threshold the
event stays unlinked.  The `max_polygon_attempt_distance_metres` adjustment
(line 711-713) is computed once per call in the source; it is replayed here
per event with the same value. -/
def findNearestStormOneEvent [LinearOrder σ] (tbl : List (InterpVertexRow σ))
    (max_link_distance_metres max_polygon_attempt_distance_metres ex ey : ℚ) :
    Option σ × Option ℚ :=
  let attempt :=
    max max_polygon_attempt_distance_metres (2 * max_link_distance_metres)
  let nearVerts := tbl.filter (vertexInBox ex ey attempt)
  if nearVerts.isEmpty then (none, none)
  else
    match (candidateIds tbl ex ey attempt).find?
        (fun s => containsEvent tbl s ex ey) with
    | some s => (some s, some 0)
    | none =>
      let linkVerts :=
        tbl.filter (vertexInBox ex ey max_link_distance_metres)
      if linkVerts.isEmpty then (none, none)
      else if linkVerts.all (fun v =>
          decide (max_link_distance_metres ^ 2 < vertexDistSq ex ey v)) then
        (none, none)
      else
        match numpyArgminFirst (vertexDistSq ex ey) linkVerts with
        | none => (none, none)
        | some vmin =>
          let s := vmin.secondary_id_string
          if containsEvent tbl s ex ey then (some s, some 0)
          else
            (some s,
             some ((linkVerts.map (vertexDistSq ex ey)).foldr min
               (vertexDistSq ex ey vmin)))

/-- `_find_nearest_storms_one_time` (linkage.py lines 682-824): runs the
per-event matcher over a batch of event coordinates, producing the parallel
arrays `nearest_secondary_id_strings` (entries `None` when unlinked) and
`linkage_distances_metres` (squared here; `none` models NaN). -/
def find_nearest_storms_one_time [LinearOrder σ]
    (interp_vertex_table : List (InterpVertexRow σ))
    (event_x_coords_metres event_y_coords_metres : List ℚ)
    (max_link_distance_metres : ℚ)
    (max_polygon_attempt_distance_metres : ℚ := 30000) :
    List (Option σ) × List (Option ℚ) :=
  let results :=
    (event_x_coords_metres.zip event_y_coords_metres).map (fun q =>
      findNearestStormOneEvent interp_vertex_table max_link_distance_metres
        max_polygon_attempt_distance_metres q.1 q.2)
  (results.map Prod.fst, results.map Prod.snd)

/-- In a `≤`-sorted list, `find?` returns an element no larger than any other
element satisfying the predicate. -/
theorem find?_sorted_le {σ : Type} [LinearOrder σ] {p : σ → Bool}
    {l : List σ} (hs : l.Sorted (· ≤ ·)) {a : σ} (h : l.find? p = some a) :
    ∀ b ∈ l, p b = true → a ≤ b := by
  induction l with
  | nil => simp at h
  | cons x xs ih =>
    by_cases hpx : p x = true
    · rw [List.find?_cons_of_pos _ hpx] at h
      simp only [Option.some.injEq] at h
      subst h
      intro b hb _
      rcases List.mem_cons.mp hb with hb | hb
      · subst hb; exact le_rfl
      · exact (List.sorted_cons.mp hs).1 b hb
    · rw [List.find?_cons_of_neg _ (by simp [hpx])] at h
      intro b hb hpb
      rcases List.mem_cons.mp hb with hb | hb
      · subst hb; exact absurd hpb hpx
      · exact ih (List.sorted_cons.mp hs).2 h b hb hpb

/-- Phase 1 of the per-event matcher: when some candidate's polygon contains
the event, the event links to the least such candidate, at distance 0. -/
theorem findNearestStormOneEvent_contained {σ : Type} [LinearOrder σ]
    {tbl : List (InterpVertexRow σ)} {maxLink attempt0 ex ey : ℚ} {s : σ}
    (hs : s ∈ candidateIds tbl ex ey (max attempt0 (2 * maxLink)))
    (hc : containsEvent tbl s ex ey = true) :
    ∃ s₀, findNearestStormOneEvent tbl maxLink attempt0 ex ey =
        (some s₀, some 0) ∧
      s₀ ∈ candidateIds tbl ex ey (max attempt0 (2 * maxLink)) ∧
      containsEvent tbl s₀ ex ey = true ∧
      ∀ s' ∈ candidateIds tbl ex ey (max attempt0 (2 * maxLink)),
        containsEvent tbl s' ex ey = true → s₀ ≤ s' := by
  have hne : ((tbl.filter
      (vertexInBox ex ey (max attempt0 (2 * maxLink)))).isEmpty) = false := by
    unfold candidateIds at hs
    rw [mem_numpyUnique] at hs
    obtain ⟨v, hv, _⟩ := List.mem_map.mp hs
    rw [List.isEmpty_eq_false_iff_exists_mem]
    exact ⟨v, hv⟩
  cases hfind : (candidateIds tbl ex ey (max attempt0 (2 * maxLink))).find?
      (fun s' => containsEvent tbl s' ex ey) with
  | none =>
    exact absurd hc (by simpa using List.find?_eq_none.mp hfind s hs)
  | some s₀ =>
    refine ⟨s₀, ?_, List.mem_of_find?_eq_some hfind,
      by simpa using List.find?_some hfind,
      find?_sorted_le (numpyUnique_sorted _) hfind⟩
    simp only [findNearestStormOneEvent, hne, hfind]
    rfl

/-- The per-event matcher leaves an event unlinked when no candidate polygon
contains it and every table vertex is farther than the linkage threshold. -/
theorem findNearestStormOneEvent_unlinked {σ : Type} [LinearOrder σ]
    {tbl : List (InterpVertexRow σ)} {maxLink attempt0 ex ey : ℚ}
    (hnc : ∀ s ∈ tbl.map (fun v => v.secondary_id_string),
      containsEvent tbl s ex ey = false)
    (hfar : ∀ v ∈ tbl, maxLink ^ 2 < vertexDistSq ex ey v) :
    findNearestStormOneEvent tbl maxLink attempt0 ex ey = (none, none) := by
  have hfind : ∀ d, (candidateIds tbl ex ey d).find?
      (fun s' => containsEvent tbl s' ex ey) = none := by
    intro d
    rw [List.find?_eq_none]
    intro s hsmem
    unfold candidateIds at hsmem
    rw [mem_numpyUnique] at hsmem
    obtain ⟨v, hv, hvs⟩ := List.mem_map.mp hsmem
    have : s ∈ tbl.map (fun v => v.secondary_id_string) :=
      List.mem_map.mpr ⟨v, List.mem_of_mem_filter hv, hvs⟩
    simp [hnc s this]
  simp only [findNearestStormOneEvent, hfind]
  by_cases hne : ((tbl.filter
      (vertexInBox ex ey (max attempt0 (2 * maxLink)))).isEmpty) = true
  · simp [hne]
  · simp only [Bool.not_eq_true] at hne
    simp only [hne, Bool.false_eq_true, if_false]
    by_cases hne2 : ((tbl.filter (vertexInBox ex ey maxLink)).isEmpty) = true
    · simp [hne2]
    · simp only [Bool.not_eq_true] at hne2
      simp only [hne2, Bool.false_eq_true, if_false]
      have hall : (tbl.filter (vertexInBox ex ey maxLink)).all (fun v =>
          decide (maxLink ^ 2 < vertexDistSq ex ey v)) = true := by
        rw [List.all_eq_true]
        intro v hv
        simpa using hfar v (List.mem_of_mem_filter hv)
      simp [hall]

/-- Indexing a zip of two lists. -/
theorem getElem?_zip_some {A B : Type} {l₁ : List A} {l₂ : List B} {k : ℕ}
    {a : A} {b : B} (h₁ : l₁[k]? = some a) (h₂ : l₂[k]? = some b) :
    (l₁.zip l₂)[k]? = some (a, b) := by
  induction l₁ generalizing l₂ k with
  | nil => simp at h₁
  | cons x xs ih =>
    cases l₂ with
    | nil => simp at h₂
    | cons y ys =>
      cases k with
      | zero =>
        simp only [List.getElem?_cons_zero, Option.some.injEq] at h₁ h₂
        simp [List.zip_cons_cons, h₁, h₂]
      | succ n =>
        simp only [List.getElem?_cons_succ] at h₁ h₂
        simpa [List.zip_cons_cons] using ih h₁ h₂

/-- The batch matcher applies the per-event matcher at each index. -/
theorem find_nearest_storms_one_time_getElem {σ : Type} [LinearOrder σ]
    (tbl : List (InterpVertexRow σ)) {xs ys : List ℚ} (m a : ℚ) {k : ℕ}
    {ex ey : ℚ} (hx : xs[k]? = some ex) (hy : ys[k]? = some ey) :
    (find_nearest_storms_one_time tbl xs ys m a).1[k]? =
      some (findNearestStormOneEvent tbl m a ex ey).1 ∧
    (find_nearest_storms_one_time tbl xs ys m a).2[k]? =
      some (findNearestStormOneEvent tbl m a ex ey).2 := by
  unfold find_nearest_storms_one_time
  constructor <;>
    simp [List.getElem?_map, getElem?_zip_some hx hy]

/-- C1 (amended): an event strictly inside a storm polygon that has at least
one vertex within the polygon-attempt box (half-width
`max(30000, 2 * max_link_distance)`, the source's coarse pre-filter) is
assigned a non-null nearest secondary ID with linkage distance exactly 0 by
`_find_nearest_storms_one_time`, regardless of the value of
`max_link_distance > 0`.  (Without a vertex in the attempt box the storm is
invisible to the matcher; see the counterexample.) -/
theorem c1_contained_event_links_at_distance_zero {σ : Type} [LinearOrder σ]
    (interp_vertex_table : List (InterpVertexRow σ))
    (event_x_coords event_y_coords : List ℚ) (max_link_distance : ℚ)
    (k : ℕ) (ex ey : ℚ) (s : σ)
    (hx : event_x_coords[k]? = some ex) (hy : event_y_coords[k]? = some ey)
    (hpos : 0 < max_link_distance)
    (hin : pointStrictlyInPolygon (polygonOfStorm interp_vertex_table s).1
      (polygonOfStorm interp_vertex_table s).2 ex ey = true)
    (hnear : ∃ v ∈ interp_vertex_table, v.secondary_id_string = s ∧
      vertexInBox ex ey (max 30000 (2 * max_link_distance)) v = true) :
    (∃ s₀, (find_nearest_storms_one_time interp_vertex_table event_x_coords
        event_y_coords max_link_distance).1[k]? = some (some s₀)) ∧
    (find_nearest_storms_one_time interp_vertex_table event_x_coords
        event_y_coords max_link_distance).2[k]? = some (some 0) := by
  obtain ⟨v, hv, hvs, hvbox⟩ := hnear
  have hs : s ∈ candidateIds interp_vertex_table ex ey
      (max 30000 (2 * max_link_distance)) := by
    unfold candidateIds
    rw [mem_numpyUnique]
    exact List.mem_map.mpr ⟨v, List.mem_filter.mpr ⟨hv, hvbox⟩, hvs⟩
  have hc : containsEvent interp_vertex_table s ex ey = true :=
    point_in_or_on_of_strictly_in hin
  obtain ⟨s₀, heq, _, _, _⟩ := findNearestStormOneEvent_contained hs hc
  obtain ⟨h1, h2⟩ := find_nearest_storms_one_time_getElem interp_vertex_table
    max_link_distance 30000 hx hy
  rw [heq] at h1 h2
  exact ⟨⟨s₀, h1⟩, h2⟩

/-- A single giant storm polygon (half-width 100 km) whose vertices all fall
outside the polygon-attempt box of an event at the origin. -/
def c1CounterexampleTable : List (InterpVertexRow ℕ) :=
  [⟨0, -100000, -100000⟩, ⟨0, 100000, -100000⟩,
   ⟨0, 100000, 100000⟩, ⟨0, -100000, 100000⟩]

/-- C1 counterexample: the event at the origin is strictly inside the giant
storm polygon, `max_link_distance = 1000 > 0`, yet
`_find_nearest_storms_one_time` leaves the event unlinked (null ID, NaN
distance): every vertex of the containing polygon is farther than
`max(30000, 2 * 1000)` in both coordinates, so the bounding-box pre-filter
never lets the containment test run. -/
theorem c1_counterexample :
    (0 : ℚ) < 1000 ∧
    pointStrictlyInPolygon (polygonOfStorm c1CounterexampleTable 0).1
      (polygonOfStorm c1CounterexampleTable 0).2 0 0 = true ∧
    find_nearest_storms_one_time c1CounterexampleTable [0] [0] 1000 =
      ([none], [none]) := by
  refine ⟨by norm_num, ?_, ?_⟩
  · norm_num [pointStrictlyInPolygon, pointOnPolygonBoundary, polygonOfStorm,
      c1CounterexampleTable, polygonEdges, List.rotate, pointOnSegment,
      crossingNumberOdd, countRayCrossings, edgeCrossesRay]
  · norm_num [find_nearest_storms_one_time, findNearestStormOneEvent,
      c1CounterexampleTable, vertexInBox, List.filter]

/-- A single 2x2 km storm polygon at the origin, for exercising C1. -/
def c1WitnessTable : List (InterpVertexRow ℕ) :=
  [⟨0, 0, 0⟩, ⟨0, 2000, 0⟩, ⟨0, 2000, 2000⟩, ⟨0, 0, 2000⟩]

theorem c1_witness :
    (∃ s₀, (find_nearest_storms_one_time c1WitnessTable [1000] [1000]
        5000).1[0]? = some (some s₀)) ∧
    (find_nearest_storms_one_time c1WitnessTable [1000] [1000]
        5000).2[0]? = some (some 0) :=
  c1_contained_event_links_at_distance_zero c1WitnessTable [1000] [1000]
    5000 0 1000 1000 0 rfl rfl (by norm_num)
    (by norm_num [pointStrictlyInPolygon, pointOnPolygonBoundary,
      polygonOfStorm, c1WitnessTable, polygonEdges, List.rotate,
      pointOnSegment, crossingNumberOdd, countRayCrossings, edgeCrossesRay])
    ⟨⟨0, 0, 0⟩, by norm_num [c1WitnessTable, vertexInBox]⟩

/-- C2: an event that is contained in (or on) no storm polygon of the table
and whose squared Euclidean distance to every storm polygon vertex exceeds
the squared `max_link_distance` is left unlinked by
`_find_nearest_storms_one_time`: null nearest secondary ID and NaN linkage
distance. -/
theorem c2_far_event_stays_unlinked {σ : Type} [LinearOrder σ]
    (interp_vertex_table : List (InterpVertexRow σ))
    (event_x_coords event_y_coords : List ℚ) (max_link_distance : ℚ)
    (k : ℕ) (ex ey : ℚ)
    (hx : event_x_coords[k]? = some ex) (hy : event_y_coords[k]? = some ey)
    (hnotin : ∀ s ∈ interp_vertex_table.map (fun v => v.secondary_id_string),
      containsEvent interp_vertex_table s ex ey = false)
    (hfar : ∀ v ∈ interp_vertex_table,
      max_link_distance ^ 2 < vertexDistSq ex ey v) :
    (find_nearest_storms_one_time interp_vertex_table event_x_coords
        event_y_coords max_link_distance).1[k]? = some none ∧
    (find_nearest_storms_one_time interp_vertex_table event_x_coords
        event_y_coords max_link_distance).2[k]? = some none := by
  have heq := @findNearestStormOneEvent_unlinked σ _ interp_vertex_table
    max_link_distance 30000 ex ey hnotin hfar
  obtain ⟨h1, h2⟩ := find_nearest_storms_one_time_getElem interp_vertex_table
    max_link_distance 30000 hx hy
  rw [heq] at h1 h2
  exact ⟨h1, h2⟩

/-- The same 2x2 km storm polygon, for exercising C2 with a faraway
event. -/
def c2WitnessTable : List (InterpVertexRow ℕ) :=
  [⟨0, 0, 0⟩, ⟨0, 2000, 0⟩, ⟨0, 2000, 2000⟩, ⟨0, 0, 2000⟩]

theorem c2_witness :
    (find_nearest_storms_one_time c2WitnessTable [1000000] [1000000]
        30000).1[0]? = some none ∧
    (find_nearest_storms_one_time c2WitnessTable [1000000] [1000000]
        30000).2[0]? = some none :=
  c2_far_event_stays_unlinked c2WitnessTable [1000000] [1000000] 30000
    0 1000000 1000000 rfl rfl
    (by
      intro s hs
      have hs0 : s = 0 := by
        simpa [c2WitnessTable] using hs
      subst hs0
      norm_num [containsEvent, point_in_or_on_polygon, pointOnPolygonBoundary,
        polygonOfStorm, c2WitnessTable, polygonEdges, List.rotate,
        pointOnSegment, crossingNumberOdd, countRayCrossings, edgeCrossesRay])
    (by
      intro v hv
      rcases (by simpa [c2WitnessTable] using hv : v = ⟨0, 0, 0⟩ ∨
        v = ⟨0, 2000, 0⟩ ∨ v = ⟨0, 2000, 2000⟩ ∨ v = ⟨0, 0, 2000⟩) with
        h | h | h | h <;>
      · subst h
        norm_num [vertexDistSq])

/-- C10 (amended): when more than one storm polygon with a vertex inside the
polygon-attempt box contains the event (in or on), the event links, at
distance 0, to the containing in-box storm with the smallest secondary ID:
the candidate IDs are iterated in sorted order via `numpy.unique` (for the
source's string IDs, lexicographic order), so the tie-break is
deterministic and depends only on each storm's polygon, not on how
different storms' rows are interleaved in the table.  (A containing storm
with no vertex in the attempt box is skipped entirely; see the
counterexample.) -/
theorem c10_containment_tiebreak_least_candidate {σ : Type} [LinearOrder σ]
    (interp_vertex_table : List (InterpVertexRow σ))
    (event_x_coords event_y_coords : List ℚ) (max_link_distance : ℚ)
    (k : ℕ) (ex ey : ℚ) (s₁ s₂ : σ)
    (hx : event_x_coords[k]? = some ex) (hy : event_y_coords[k]? = some ey)
    (hne : s₁ ≠ s₂)
    (h₁ : s₁ ∈ candidateIds interp_vertex_table ex ey
        (max 30000 (2 * max_link_distance)) ∧
      containsEvent interp_vertex_table s₁ ex ey = true)
    (h₂ : s₂ ∈ candidateIds interp_vertex_table ex ey
        (max 30000 (2 * max_link_distance)) ∧
      containsEvent interp_vertex_table s₂ ex ey = true) :
    ∃ s₀, (find_nearest_storms_one_time interp_vertex_table event_x_coords
        event_y_coords max_link_distance).1[k]? = some (some s₀) ∧
      (find_nearest_storms_one_time interp_vertex_table event_x_coords
        event_y_coords max_link_distance).2[k]? = some (some 0) ∧
      s₀ ∈ candidateIds interp_vertex_table ex ey
        (max 30000 (2 * max_link_distance)) ∧
      containsEvent interp_vertex_table s₀ ex ey = true ∧
      ∀ s' ∈ candidateIds interp_vertex_table ex ey
          (max 30000 (2 * max_link_distance)),
        containsEvent interp_vertex_table s' ex ey = true → s₀ ≤ s' := by
  obtain ⟨s₀, heq, hmem, hcont, hleast⟩ :=
    findNearestStormOneEvent_contained h₁.1 h₁.2
  obtain ⟨hg1, hg2⟩ := find_nearest_storms_one_time_getElem interp_vertex_table
    max_link_distance 30000 hx hy
  rw [heq] at hg1 hg2
  exact ⟨s₀, hg1, hg2, hmem, hcont, hleast⟩

/-- A giant storm polygon (ID 0, half-width 100 km, no vertex within the
attempt box of the origin) together with a small storm polygon (ID 1,
half-width 1 m) around the origin. -/
def c10CounterexampleTable : List (InterpVertexRow ℕ) :=
  [⟨0, -100000, -100000⟩, ⟨0, 100000, -100000⟩,
   ⟨0, 100000, 100000⟩, ⟨0, -100000, 100000⟩,
   ⟨1, -1, -1⟩, ⟨1, 1, -1⟩, ⟨1, 1, 1⟩, ⟨1, -1, 1⟩]

/-- C10 counterexample: the event at the origin lies inside more than one
storm polygon and the containing storm with the smallest secondary ID is
storm 0, yet the matcher links the event to storm 1: storm 0 has no vertex
inside the polygon-attempt box, so it never becomes a candidate.  The
claim's tie-break is therefore restricted to containing storms with a
vertex in the attempt box. -/
theorem c10_counterexample :
    point_in_or_on_polygon (polygonOfStorm c10CounterexampleTable 0).1
      (polygonOfStorm c10CounterexampleTable 0).2 0 0 = true ∧
    point_in_or_on_polygon (polygonOfStorm c10CounterexampleTable 1).1
      (polygonOfStorm c10CounterexampleTable 1).2 0 0 = true ∧
    (0 : ℕ) < 1 ∧
    (find_nearest_storms_one_time c10CounterexampleTable [0] [0] 1000).1 =
      [some 1] := by
  refine ⟨?_, ?_, by norm_num, ?_⟩
  · norm_num [point_in_or_on_polygon, pointOnPolygonBoundary, polygonOfStorm,
      c10CounterexampleTable, polygonEdges, List.rotate, pointOnSegment,
      crossingNumberOdd, countRayCrossings, edgeCrossesRay]
  · norm_num [point_in_or_on_polygon, pointOnPolygonBoundary, polygonOfStorm,
      c10CounterexampleTable, polygonEdges, List.rotate, pointOnSegment,
      crossingNumberOdd, countRayCrossings, edgeCrossesRay]
  · norm_num [find_nearest_storms_one_time, findNearestStormOneEvent,
      c10CounterexampleTable, vertexInBox, candidateIds, numpyUnique,
      List.dedup_cons_of_mem, List.dedup_cons_of_not_mem, List.insertionSort,
      List.orderedInsert, containsEvent, point_in_or_on_polygon,
      pointOnPolygonBoundary, polygonOfStorm, polygonEdges, List.rotate,
      pointOnSegment, crossingNumberOdd, countRayCrossings, edgeCrossesRay]

/-- Two concentric squares both containing the origin, both with vertices in
the attempt box, for exercising C10. -/
def c10WitnessTable : List (InterpVertexRow ℕ) :=
  [⟨0, -1000, -1000⟩, ⟨0, 1000, -1000⟩, ⟨0, 1000, 1000⟩, ⟨0, -1000, 1000⟩,
   ⟨1, -2000, -2000⟩, ⟨1, 2000, -2000⟩, ⟨1, 2000, 2000⟩, ⟨1, -2000, 2000⟩]

theorem c10_witness :
    ∃ s₀, (find_nearest_storms_one_time c10WitnessTable [0] [0]
        5000).1[0]? = some (some s₀) ∧
      (find_nearest_storms_one_time c10WitnessTable [0] [0]
        5000).2[0]? = some (some 0) ∧
      s₀ ∈ candidateIds c10WitnessTable 0 0 (max 30000 (2 * 5000)) ∧
      containsEvent c10WitnessTable s₀ 0 0 = true ∧
      ∀ s' ∈ candidateIds c10WitnessTable 0 0 (max 30000 (2 * 5000)),
        containsEvent c10WitnessTable s' 0 0 = true → s₀ ≤ s' :=
  c10_containment_tiebreak_least_candidate c10WitnessTable [0] [0] 5000
    0 0 0 0 1 rfl rfl (by norm_num)
    ⟨by
      norm_num [candidateIds, numpyUnique, c10WitnessTable, vertexInBox,
        mem_numpyUnique],
      by
      norm_num [containsEvent, point_in_or_on_polygon, pointOnPolygonBoundary,
        polygonOfStorm, c10WitnessTable, polygonEdges, List.rotate,
        pointOnSegment, crossingNumberOdd, countRayCrossings, edgeCrossesRay]⟩
    ⟨by
      norm_num [candidateIds, numpyUnique, c10WitnessTable, vertexInBox,
        mem_numpyUnique],
      by
      norm_num [containsEvent, point_in_or_on_polygon, pointOnPolygonBoundary,
        polygonOfStorm, c10WitnessTable, polygonEdges, List.rotate,
        pointOnSegment, crossingNumberOdd, countRayCrossings, edgeCrossesRay]⟩

/-! ## Reversal of linkages: `_reverse_wind_linkages`
(linkage.py lines 1363-1548) and `_reverse_tornado_linkages`
(lines 1551-1725) -/

/-- An indexed map over a list, carrying the position offset (the loops in
the reversal functions address rows by position). -/
def mapIdxFrom {A B : Type} (f : ℕ → A → B) : ℕ → List A → List B
  | _, [] => []
  | n, a :: as => f n a :: mapIdxFrom f (n + 1) as

theorem getElem?_mapIdxFrom {A B : Type} (f : ℕ → A → B) :
    ∀ (n : ℕ) (l : List A) (k : ℕ),
      (mapIdxFrom f n l)[k]? = (l[k]?).map (f (n + k)) := by
  intro n l
  induction l generalizing n with
  | nil => intro k; simp [mapIdxFrom]
  | cons a as ih =>
    intro k
    cases k with
    | zero => simp [mapIdxFrom]
    | succ m =>
      simp only [mapIdxFrom, List.getElem?_cons_succ]
      rw [ih (n + 1) m]
      have harith : n + 1 + m = n + (m + 1) := by omega
      rw [harith]

/-- One row of a wind-to-storm table (`_find_nearest_storms` output for wind
observations).  `σ` is the secondary-ID type, `ω` the station-ID type. -/
structure WindToStormRow (σ ω : Type) : Type where
  station_id : ω
  latitude_deg : ℚ
  longitude_deg : ℚ
  unix_time_sec : ℤ
  u_wind_m_s01 : ℚ
  v_wind_m_s01 : ℚ
  nearest_secondary_id_string : Option σ
  nearest_storm_time_unix_sec : ℤ
  linkage_distance_metres : ℚ

/-- One row of the storm-to-winds table built by `_reverse_wind_linkages`:
the storm object's own columns plus the per-storm event lists.  The source
preallocates the list columns with a nested-array trick and converts them
to numpy arrays at the end (lines 1515-1546); both are identity here. -/
structure StormToWindsRow (σ ω : Type) : Type where
  storm : StormObjectRow σ
  wind_station_ids : List ω
  event_latitudes_deg : List ℚ
  event_longitudes_deg : List ℚ
  u_winds_m_s01 : List ℚ
  v_winds_m_s01 : List ℚ
  linkage_distances_metres : List ℚ
  relative_event_times_sec : List ℤ
  main_object_flags : List Bool
  merging_predecessor_flag : Bool

variable {ω τ φ : Type}

/-- A fresh storm-to-winds row: empty event lists, merging flag False
(lines 1406-1430). -/
def initStormToWindsRow (s : StormObjectRow σ) : StormToWindsRow σ ω :=
  ⟨s, [], [], [], [], [], [], [], [], false⟩

/-- The main storm object chosen for one linked wind observation: among the
rows of the nearest secondary ID, the one whose valid time is closest to the
recorded nearest-storm time (`numpy.argmin` over absolute time differences,
first row on ties; lines 1442-1460).  `none` when the observation is
unlinked (the `continue` on line 1439) or the ID has no rows (where
`numpy.argmin` would raise on an empty array). -/
def windMainRow [DecidableEq σ] (S : List (StormObjectRow σ))
    (w : WindToStormRow σ ω) : Option ℕ :=
  match w.nearest_secondary_id_string with
  | none => none
  | some sec =>
    numpyArgminFirst
      (fun i => |w.nearest_storm_time_unix_sec -
        (S[i]?.elim 0 (fun r => r.valid_time_unix_sec))|)
      ((List.range S.length).filter (fun i =>
        S[i]?.elim false (fun r => decide (r.secondary_id_string = sec))))

/-- Appending one wind observation to row `j`'s event lists
(lines 1479-1513). -/
def windEntryAppend (w : WindToStormRow σ ω) (mainRow j : ℕ)
    (row : StormToWindsRow σ ω) : StormToWindsRow σ ω :=
  { row with
    wind_station_ids := row.wind_station_ids ++ [w.station_id]
    event_latitudes_deg := row.event_latitudes_deg ++ [w.latitude_deg]
    event_longitudes_deg := row.event_longitudes_deg ++ [w.longitude_deg]
    u_winds_m_s01 := row.u_winds_m_s01 ++ [w.u_wind_m_s01]
    v_winds_m_s01 := row.v_winds_m_s01 ++ [w.v_wind_m_s01]
    linkage_distances_metres :=
      row.linkage_distances_metres ++ [w.linkage_distance_metres]
    relative_event_times_sec := row.relative_event_times_sec ++
      [w.unix_time_sec - row.storm.valid_time_unix_sec]
    main_object_flags := row.main_object_flags ++ [decide (j = mainRow)] }

/-- What processing one wind observation does to row `j` of the
storm-to-winds table: set the merging-predecessor flag when `j` is a merging
predecessor of the observation's main object (lines 1466-1468); append the
observation when `j` is a simple predecessor whose valid time is not after
the observation time (lines 1470-1513). -/
def windRowUpdate [DecidableEq σ] (S : List (StormObjectRow σ))
    (w : WindToStormRow σ ω) (j : ℕ) (row : StormToWindsRow σ ω) :
    StormToWindsRow σ ω :=
  match windMainRow S w with
  | none => row
  | some mainRow =>
    let row1 := if j ∈ (find_predecessors S mainRow).2 then
      { row with merging_predecessor_flag := true } else row
    if j ∈ (find_predecessors S mainRow).1 ∧
        row.storm.valid_time_unix_sec ≤ w.unix_time_sec then
      windEntryAppend w mainRow j row1
    else row1

/-- `_reverse_wind_linkages` (linkage.py lines 1363-1548): builds the
storm-to-winds table from the storm-object table and the wind-to-storm
table, processing wind observations in row order.  The graph queries read
the storm columns of the table under construction, which the updates never
touch. -/
def reverse_wind_linkages [DecidableEq σ]
    (storm_object_table : List (StormObjectRow σ))
    (wind_to_storm_table : List (WindToStormRow σ ω)) :
    List (StormToWindsRow σ ω) :=
  wind_to_storm_table.foldl
    (fun tbl w =>
      mapIdxFrom (windRowUpdate (tbl.map (fun r => r.storm)) w) 0 tbl)
    (storm_object_table.map (fun s => initStormToWindsRow s))

/-- One row of a tornado-to-storm table as consumed by
`_reverse_tornado_linkages` (`_find_nearest_storms` output for tornadoes).
`τ` is the tornado-ID type, `φ` the F/EF-rating type. -/
structure TornadoToStormFullRow (σ τ φ : Type) : Type where
  tornado_id_string : τ
  f_or_ef_rating : φ
  latitude_deg : ℚ
  longitude_deg : ℚ
  unix_time_sec : ℤ
  nearest_secondary_id_string : Option σ
  nearest_storm_time_unix_sec : ℤ
  linkage_distance_metres : ℚ

/-- One row of the storm-to-tornadoes table built by
`_reverse_tornado_linkages`. -/
structure StormToTornadoesRow (σ τ φ : Type) : Type where
  storm : StormObjectRow σ
  event_latitudes_deg : List ℚ
  event_longitudes_deg : List ℚ
  f_or_ef_scale_ratings : List φ
  tornado_id_strings : List τ
  linkage_distances_metres : List ℚ
  relative_event_times_sec : List ℤ
  main_object_flags : List Bool
  merging_predecessor_flag : Bool

/-- A fresh storm-to-tornadoes row (lines 1591-1609). -/
def initStormToTornadoesRow (s : StormObjectRow σ) :
    StormToTornadoesRow σ τ φ :=
  ⟨s, [], [], [], [], [], [], [], false⟩

/-- The main storm object chosen for one linked tornado event
(lines 1621-1639), as in `windMainRow`. -/
def tornadoMainRow [DecidableEq σ] (S : List (StormObjectRow σ))
    (w : TornadoToStormFullRow σ τ φ) : Option ℕ :=
  match w.nearest_secondary_id_string with
  | none => none
  | some sec =>
    numpyArgminFirst
      (fun i => |w.nearest_storm_time_unix_sec -
        (S[i]?.elim 0 (fun r => r.valid_time_unix_sec))|)
      ((List.range S.length).filter (fun i =>
        S[i]?.elim false (fun r => decide (r.secondary_id_string = sec))))

/-- Appending one tornado event to row `j`'s event lists
(lines 1659-1691). -/
def tornadoEntryAppend (w : TornadoToStormFullRow σ τ φ) (mainRow j : ℕ)
    (row : StormToTornadoesRow σ τ φ) : StormToTornadoesRow σ τ φ :=
  { row with
    event_latitudes_deg := row.event_latitudes_deg ++ [w.latitude_deg]
    event_longitudes_deg := row.event_longitudes_deg ++ [w.longitude_deg]
    f_or_ef_scale_ratings := row.f_or_ef_scale_ratings ++ [w.f_or_ef_rating]
    tornado_id_strings := row.tornado_id_strings ++ [w.tornado_id_string]
    linkage_distances_metres :=
      row.linkage_distances_metres ++ [w.linkage_distance_metres]
    relative_event_times_sec := row.relative_event_times_sec ++
      [w.unix_time_sec - row.storm.valid_time_unix_sec]
    main_object_flags := row.main_object_flags ++ [decide (j = mainRow)] }

/-- What processing one tornado event does to row `j` (lines 1641-1691), as
in `windRowUpdate`. -/
def tornadoRowUpdate [DecidableEq σ] (S : List (StormObjectRow σ))
    (w : TornadoToStormFullRow σ τ φ) (j : ℕ)
    (row : StormToTornadoesRow σ τ φ) : StormToTornadoesRow σ τ φ :=
  match tornadoMainRow S w with
  | none => row
  | some mainRow =>
    let row1 := if j ∈ (find_predecessors S mainRow).2 then
      { row with merging_predecessor_flag := true } else row
    if j ∈ (find_predecessors S mainRow).1 ∧
        row.storm.valid_time_unix_sec ≤ w.unix_time_sec then
      tornadoEntryAppend w mainRow j row1
    else row1

/-- `_reverse_tornado_linkages` (linkage.py lines 1551-1725). -/
def reverse_tornado_linkages [DecidableEq σ]
    (storm_object_table : List (StormObjectRow σ))
    (tornado_to_storm_table : List (TornadoToStormFullRow σ τ φ)) :
    List (StormToTornadoesRow σ τ φ) :=
  tornado_to_storm_table.foldl
    (fun tbl w =>
      mapIdxFrom (tornadoRowUpdate (tbl.map (fun r => r.storm)) w) 0 tbl)
    (storm_object_table.map (fun s => initStormToTornadoesRow s))

/-- Whether one wind observation gets appended to row `j`: the observation
is linked, its main object exists, `j` is a simple predecessor of the main
object, and row `j`'s valid time does not exceed the observation time. -/
def windCond [DecidableEq σ] (S : List (StormObjectRow σ)) (j : ℕ)
    (w : WindToStormRow σ ω) : Bool :=
  match windMainRow S w with
  | none => false
  | some m =>
    decide (j ∈ (find_predecessors S m).1) &&
    decide ((S[j]?.elim 0 (fun r => r.valid_time_unix_sec)) ≤ w.unix_time_sec)

/-- The main-object flag recorded when the observation is appended to row
`j`. -/
def windMainFlag [DecidableEq σ] (S : List (StormObjectRow σ)) (j : ℕ)
    (w : WindToStormRow σ ω) : Bool :=
  match windMainRow S w with
  | none => false
  | some m => decide (j = m)

/-- Whether one wind observation marks row `j` as a merging predecessor. -/
def windMergeCond [DecidableEq σ] (S : List (StormObjectRow σ)) (j : ℕ)
    (w : WindToStormRow σ ω) : Bool :=
  match windMainRow S w with
  | none => false
  | some m => decide (j ∈ (find_predecessors S m).2)

theorem windRowUpdate_storm [DecidableEq σ] (S : List (StormObjectRow σ))
    (w : WindToStormRow σ ω) (j : ℕ) (row : StormToWindsRow σ ω) :
    (windRowUpdate S w j row).storm = row.storm := by
  unfold windRowUpdate
  cases windMainRow S w with
  | none => rfl
  | some m =>
    dsimp only
    by_cases h2 : j ∈ (find_predecessors S m).2 <;>
      by_cases h1 : j ∈ (find_predecessors S m).1 ∧
        row.storm.valid_time_unix_sec ≤ w.unix_time_sec <;>
      simp [h1, h2, windEntryAppend]

/-- The field-level effect of processing one wind observation on row `j`. -/
theorem windRowUpdate_fields [DecidableEq σ] (S : List (StormObjectRow σ))
    (w : WindToStormRow σ ω) (j : ℕ) (row : StormToWindsRow σ ω)
    (hjs : (S[j]?.elim 0 (fun r => r.valid_time_unix_sec)) =
      row.storm.valid_time_unix_sec) :
    (windRowUpdate S w j row).wind_station_ids =
      row.wind_station_ids ++
        (if windCond S j w then [w.station_id] else []) ∧
    (windRowUpdate S w j row).relative_event_times_sec =
      row.relative_event_times_sec ++
        (if windCond S j w then
          [w.unix_time_sec - row.storm.valid_time_unix_sec] else []) ∧
    (windRowUpdate S w j row).main_object_flags =
      row.main_object_flags ++
        (if windCond S j w then [windMainFlag S j w] else []) ∧
    (windRowUpdate S w j row).merging_predecessor_flag =
      (row.merging_predecessor_flag || windMergeCond S j w) := by
  unfold windRowUpdate windCond windMainFlag windMergeCond
  cases windMainRow S w with
  | none => simp
  | some m =>
    dsimp only
    rw [hjs]
    by_cases h1 : j ∈ (find_predecessors S m).1 ∧
        row.storm.valid_time_unix_sec ≤ w.unix_time_sec
    · by_cases h2 : j ∈ (find_predecessors S m).2 <;>
        simp [h1, h1.1, h1.2, h2, windEntryAppend]
    · rw [if_neg h1]
      have hcond : (decide (j ∈ (find_predecessors S m).1) &&
          decide (row.storm.valid_time_unix_sec ≤ w.unix_time_sec)) =
            false := by
        rcases Decidable.not_and_iff_or_not.mp h1 with h | h <;> simp [h]
      by_cases h2 : j ∈ (find_predecessors S m).2 <;>
        simp [hcond, h2]

theorem map_storm_mapIdxFrom_wind [DecidableEq σ]
    (S : List (StormObjectRow σ)) (w : WindToStormRow σ ω) :
    ∀ (n : ℕ) (tbl : List (StormToWindsRow σ ω)),
      (mapIdxFrom (windRowUpdate S w) n tbl).map (fun r => r.storm) =
        tbl.map (fun r => r.storm) := by
  intro n tbl
  induction tbl generalizing n with
  | nil => rfl
  | cons r rs ih =>
    simp only [mapIdxFrom, List.map_cons, windRowUpdate_storm]
    rw [ih]

/-- The fold of `_reverse_wind_linkages` over the wind observations,
characterized per row: each row accumulates exactly the observations that
pass `windCond`, in table order. -/
theorem reverse_wind_fold_row [DecidableEq σ] (S : List (StormObjectRow σ)) :
    ∀ (W : List (WindToStormRow σ ω)) (T : List (StormToWindsRow σ ω))
      (j : ℕ) (row : StormToWindsRow σ ω),
      T.map (fun r => r.storm) = S →
      T[j]? = some row →
      ∃ row', (W.foldl (fun tbl w =>
          mapIdxFrom (windRowUpdate (tbl.map (fun r => r.storm)) w) 0 tbl)
          T)[j]? = some row' ∧
        row'.storm = row.storm ∧
        row'.wind_station_ids = row.wind_station_ids ++
          (W.filter (windCond S j)).map (fun w => w.station_id) ∧
        row'.relative_event_times_sec = row.relative_event_times_sec ++
          (W.filter (windCond S j)).map (fun w =>
            w.unix_time_sec - row.storm.valid_time_unix_sec) ∧
        row'.main_object_flags = row.main_object_flags ++
          (W.filter (windCond S j)).map (windMainFlag S j) ∧
        row'.merging_predecessor_flag =
          (row.merging_predecessor_flag || W.any (windMergeCond S j)) := by
  intro W
  induction W with
  | nil =>
    intro T j row _ hrow
    exact ⟨row, hrow, rfl, by simp, by simp, by simp, by simp⟩
  | cons w W' ih =>
    intro T j row hstorm hrow
    have hjs : (S[j]?.elim 0 (fun r => r.valid_time_unix_sec)) =
        row.storm.valid_time_unix_sec := by
      rw [← hstorm, List.getElem?_map, hrow]
      rfl
    have hrow' : (mapIdxFrom (windRowUpdate S w) 0 T)[j]? =
        some (windRowUpdate S w j row) := by
      rw [getElem?_mapIdxFrom, hrow]
      simp
    have hstorm' : (mapIdxFrom (windRowUpdate S w) 0 T).map
        (fun r => r.storm) = S := by
      rw [map_storm_mapIdxFrom_wind, hstorm]
    obtain ⟨row', hget, hst, hids, hrel, hflags, hmerge⟩ :=
      ih (mapIdxFrom (windRowUpdate S w) 0 T) j (windRowUpdate S w j row)
        hstorm' hrow'
    obtain ⟨f1, f2, f3, f4⟩ := windRowUpdate_fields S w j row hjs
    refine ⟨row', ?_, ?_, ?_, ?_, ?_, ?_⟩
    · rw [List.foldl_cons, hstorm]
      exact hget
    · rw [hst, windRowUpdate_storm]
    · rw [hids, f1, List.filter_cons]
      by_cases hc : windCond S j w <;> simp [hc]
    · rw [windRowUpdate_storm S w j row] at hrel
      rw [hrel, f2, List.filter_cons]
      by_cases hc : windCond S j w <;> simp [hc]
    · rw [hflags, f3, List.filter_cons]
      by_cases hc : windCond S j w <;> simp [hc]
    · rw [hmerge, f4, List.any_cons]
      by_cases hc : windMergeCond S j w <;> simp [hc, Bool.or_assoc]

/-- Whether one tornado event gets appended to row `j` (tornado analogue of
`windCond`). -/
def tornadoCond [DecidableEq σ] (S : List (StormObjectRow σ)) (j : ℕ)
    (w : TornadoToStormFullRow σ τ φ) : Bool :=
  match tornadoMainRow S w with
  | none => false
  | some m =>
    decide (j ∈ (find_predecessors S m).1) &&
    decide ((S[j]?.elim 0 (fun r => r.valid_time_unix_sec)) ≤ w.unix_time_sec)

/-- The main-object flag recorded for one tornado event on row `j`. -/
def tornadoMainFlag [DecidableEq σ] (S : List (StormObjectRow σ)) (j : ℕ)
    (w : TornadoToStormFullRow σ τ φ) : Bool :=
  match tornadoMainRow S w with
  | none => false
  | some m => decide (j = m)

/-- Whether one tornado event marks row `j` as a merging predecessor. -/
def tornadoMergeCond [DecidableEq σ] (S : List (StormObjectRow σ)) (j : ℕ)
    (w : TornadoToStormFullRow σ τ φ) : Bool :=
  match tornadoMainRow S w with
  | none => false
  | some m => decide (j ∈ (find_predecessors S m).2)

theorem tornadoRowUpdate_storm [DecidableEq σ] (S : List (StormObjectRow σ))
    (w : TornadoToStormFullRow σ τ φ) (j : ℕ)
    (row : StormToTornadoesRow σ τ φ) :
    (tornadoRowUpdate S w j row).storm = row.storm := by
  unfold tornadoRowUpdate
  cases tornadoMainRow S w with
  | none => rfl
  | some m =>
    dsimp only
    by_cases h2 : j ∈ (find_predecessors S m).2 <;>
      by_cases h1 : j ∈ (find_predecessors S m).1 ∧
        row.storm.valid_time_unix_sec ≤ w.unix_time_sec <;>
      simp [h1, h2, tornadoEntryAppend]

/-- The field-level effect of processing one tornado event on row `j`. -/
theorem tornadoRowUpdate_fields [DecidableEq σ] (S : List (StormObjectRow σ))
    (w : TornadoToStormFullRow σ τ φ) (j : ℕ)
    (row : StormToTornadoesRow σ τ φ)
    (hjs : (S[j]?.elim 0 (fun r => r.valid_time_unix_sec)) =
      row.storm.valid_time_unix_sec) :
    (tornadoRowUpdate S w j row).tornado_id_strings =
      row.tornado_id_strings ++
        (if tornadoCond S j w then [w.tornado_id_string] else []) ∧
    (tornadoRowUpdate S w j row).relative_event_times_sec =
      row.relative_event_times_sec ++
        (if tornadoCond S j w then
          [w.unix_time_sec - row.storm.valid_time_unix_sec] else []) ∧
    (tornadoRowUpdate S w j row).main_object_flags =
      row.main_object_flags ++
        (if tornadoCond S j w then [tornadoMainFlag S j w] else []) ∧
    (tornadoRowUpdate S w j row).merging_predecessor_flag =
      (row.merging_predecessor_flag || tornadoMergeCond S j w) := by
  unfold tornadoRowUpdate tornadoCond tornadoMainFlag tornadoMergeCond
  cases tornadoMainRow S w with
  | none => simp
  | some m =>
    dsimp only
    rw [hjs]
    by_cases h1 : j ∈ (find_predecessors S m).1 ∧
        row.storm.valid_time_unix_sec ≤ w.unix_time_sec
    · by_cases h2 : j ∈ (find_predecessors S m).2 <;>
        simp [h1, h1.1, h1.2, h2, tornadoEntryAppend]
    · rw [if_neg h1]
      have hcond : (decide (j ∈ (find_predecessors S m).1) &&
          decide (row.storm.valid_time_unix_sec ≤ w.unix_time_sec)) =
            false := by
        rcases Decidable.not_and_iff_or_not.mp h1 with h | h <;> simp [h]
      by_cases h2 : j ∈ (find_predecessors S m).2 <;>
        simp [hcond, h2]

theorem map_storm_mapIdxFrom_tornado [DecidableEq σ]
    (S : List (StormObjectRow σ)) (w : TornadoToStormFullRow σ τ φ) :
    ∀ (n : ℕ) (tbl : List (StormToTornadoesRow σ τ φ)),
      (mapIdxFrom (tornadoRowUpdate S w) n tbl).map (fun r => r.storm) =
        tbl.map (fun r => r.storm) := by
  intro n tbl
  induction tbl generalizing n with
  | nil => rfl
  | cons r rs ih =>
    simp only [mapIdxFrom, List.map_cons, tornadoRowUpdate_storm]
    rw [ih]

/-- The fold of `_reverse_tornado_linkages` over the tornado events,
characterized per row. -/
theorem reverse_tornado_fold_row [DecidableEq σ]
    (S : List (StormObjectRow σ)) :
    ∀ (W : List (TornadoToStormFullRow σ τ φ))
      (T : List (StormToTornadoesRow σ τ φ))
      (j : ℕ) (row : StormToTornadoesRow σ τ φ),
      T.map (fun r => r.storm) = S →
      T[j]? = some row →
      ∃ row', (W.foldl (fun tbl w =>
          mapIdxFrom (tornadoRowUpdate (tbl.map (fun r => r.storm)) w) 0 tbl)
          T)[j]? = some row' ∧
        row'.storm = row.storm ∧
        row'.tornado_id_strings = row.tornado_id_strings ++
          (W.filter (tornadoCond S j)).map (fun w => w.tornado_id_string) ∧
        row'.relative_event_times_sec = row.relative_event_times_sec ++
          (W.filter (tornadoCond S j)).map (fun w =>
            w.unix_time_sec - row.storm.valid_time_unix_sec) ∧
        row'.main_object_flags = row.main_object_flags ++
          (W.filter (tornadoCond S j)).map (tornadoMainFlag S j) ∧
        row'.merging_predecessor_flag =
          (row.merging_predecessor_flag || W.any (tornadoMergeCond S j)) := by
  intro W
  induction W with
  | nil =>
    intro T j row _ hrow
    exact ⟨row, hrow, rfl, by simp, by simp, by simp, by simp⟩
  | cons w W' ih =>
    intro T j row hstorm hrow
    have hjs : (S[j]?.elim 0 (fun r => r.valid_time_unix_sec)) =
        row.storm.valid_time_unix_sec := by
      rw [← hstorm, List.getElem?_map, hrow]
      rfl
    have hrow' : (mapIdxFrom (tornadoRowUpdate S w) 0 T)[j]? =
        some (tornadoRowUpdate S w j row) := by
      rw [getElem?_mapIdxFrom, hrow]
      simp
    have hstorm' : (mapIdxFrom (tornadoRowUpdate S w) 0 T).map
        (fun r => r.storm) = S := by
      rw [map_storm_mapIdxFrom_tornado, hstorm]
    obtain ⟨row', hget, hst, hids, hrel, hflags, hmerge⟩ :=
      ih (mapIdxFrom (tornadoRowUpdate S w) 0 T) j
        (tornadoRowUpdate S w j row) hstorm' hrow'
    obtain ⟨f1, f2, f3, f4⟩ := tornadoRowUpdate_fields S w j row hjs
    refine ⟨row', ?_, ?_, ?_, ?_, ?_, ?_⟩
    · rw [List.foldl_cons, hstorm]
      exact hget
    · rw [hst, tornadoRowUpdate_storm]
    · rw [hids, f1, List.filter_cons]
      by_cases hc : tornadoCond S j w <;> simp [hc]
    · rw [tornadoRowUpdate_storm S w j row] at hrel
      rw [hrel, f2, List.filter_cons]
      by_cases hc : tornadoCond S j w <;> simp [hc]
    · rw [hflags, f3, List.filter_cons]
      by_cases hc : tornadoCond S j w <;> simp [hc]
    · rw [hmerge, f4, List.any_cons]
      by_cases hc : tornadoMergeCond S j w <;> simp [hc, Bool.or_assoc]

/-- A valid target row is always among its own simple predecessors: the walk
includes the start row (`return_all_on_path=True`), and no secondary-ID
change separates the start row from itself. -/
theorem target_mem_simple_predecessors [DecidableEq σ]
    {S : List (StormObjectRow σ)} {m : ℕ} {r : StormObjectRow σ}
    (hm : S[m]? = some r) : m ∈ (find_predecessors S m).1 := by
  have hlen : m < S.length := by
    by_contra hc
    rw [List.getElem?_eq_none (by omega)] at hm
    exact Option.noConfusion hm
  have hpos : 0 < S.length := by omega
  obtain ⟨n, hn⟩ : ∃ n, S.length = n + 1 :=
    ⟨S.length - 1, by omega⟩
  have hmem : ∀ (budget : ℕ) (ct : ChangeTypeString) (nsb : ℤ),
      m ∈ temporal_tracking_find_predecessors S m nsb budget ct := by
    intro budget ct nsb
    unfold temporal_tracking_find_predecessors
    rw [hm, hn]
    simp only [findPredecessorsAux]
    exact List.mem_cons_self _ _
  unfold find_predecessors
  simp only [Finset.mem_inter, List.mem_toFinset]
  exact ⟨hmem 1 .any_change LARGE_INTEGER, hmem 0 .merger LARGE_INTEGER⟩

/-- A chosen main row is a valid row index of the storm table. -/
theorem windMainRow_isValid [DecidableEq σ] {S : List (StormObjectRow σ)}
    {w : WindToStormRow σ ω} {m : ℕ} (h : windMainRow S w = some m) :
    ∃ r, S[m]? = some r := by
  unfold windMainRow at h
  cases hs : w.nearest_secondary_id_string with
  | none => rw [hs] at h; exact Option.noConfusion h
  | some sec =>
    rw [hs] at h
    have hmem := numpyArgminFirst_mem _ h
    have hrange := List.mem_range.mp (List.mem_of_mem_filter hmem)
    exact ⟨S.get ⟨m, hrange⟩, List.getElem?_eq_some_iff.mpr ⟨hrange, rfl⟩⟩

theorem tornadoMainRow_isValid [DecidableEq σ] {S : List (StormObjectRow σ)}
    {w : TornadoToStormFullRow σ τ φ} {m : ℕ}
    (h : tornadoMainRow S w = some m) : ∃ r, S[m]? = some r := by
  unfold tornadoMainRow at h
  cases hs : w.nearest_secondary_id_string with
  | none => rw [hs] at h; exact Option.noConfusion h
  | some sec =>
    rw [hs] at h
    have hmem := numpyArgminFirst_mem _ h
    have hrange := List.mem_range.mp (List.mem_of_mem_filter hmem)
    exact ⟨S.get ⟨m, hrange⟩, List.getElem?_eq_some_iff.mpr ⟨hrange, rfl⟩⟩

theorem windCond_time_le [DecidableEq σ] {S : List (StormObjectRow σ)}
    {j : ℕ} {w : WindToStormRow σ ω} (h : windCond S j w = true) :
    (S[j]?.elim 0 (fun r => r.valid_time_unix_sec)) ≤ w.unix_time_sec := by
  unfold windCond at h
  cases hm : windMainRow S w with
  | none => rw [hm] at h; exact Bool.noConfusion h
  | some m =>
    rw [hm] at h
    exact of_decide_eq_true (Bool.and_eq_true_iff.mp h).2

theorem windMainFlag_eq_true [DecidableEq σ] {S : List (StormObjectRow σ)}
    {j : ℕ} {w : WindToStormRow σ ω} (h : windMainFlag S j w = true) :
    windMainRow S w = some j := by
  unfold windMainFlag at h
  cases hm : windMainRow S w with
  | none => rw [hm] at h; exact Bool.noConfusion h
  | some m =>
    rw [hm] at h
    rw [of_decide_eq_true h]

theorem tornadoCond_time_le [DecidableEq σ] {S : List (StormObjectRow σ)}
    {j : ℕ} {w : TornadoToStormFullRow σ τ φ} (h : tornadoCond S j w = true) :
    (S[j]?.elim 0 (fun r => r.valid_time_unix_sec)) ≤ w.unix_time_sec := by
  unfold tornadoCond at h
  cases hm : tornadoMainRow S w with
  | none => rw [hm] at h; exact Bool.noConfusion h
  | some m =>
    rw [hm] at h
    exact of_decide_eq_true (Bool.and_eq_true_iff.mp h).2

theorem tornadoMainFlag_eq_true [DecidableEq σ] {S : List (StormObjectRow σ)}
    {j : ℕ} {w : TornadoToStormFullRow σ τ φ}
    (h : tornadoMainFlag S j w = true) : tornadoMainRow S w = some j := by
  unfold tornadoMainFlag at h
  cases hm : tornadoMainRow S w with
  | none => rw [hm] at h; exact Bool.noConfusion h
  | some m =>
    rw [hm] at h
    rw [of_decide_eq_true h]

/-- C5: in `_reverse_wind_linkages` and `_reverse_tornado_linkages`, a
linked event is appended to the event lists of exactly the simple
predecessors of its main storm object whose valid times do not exceed the
event time (the main object is itself among its simple predecessors);
consequently every relative event time stored in the reversed table is
non-negative, and a True main-object flag occurs only on the originally
chosen main object. -/
theorem c5_reversal_appends_to_simple_predecessors [DecidableEq σ]
    (S : List (StormObjectRow σ)) (W : List (WindToStormRow σ ω))
    (TT : List (TornadoToStormFullRow σ τ φ)) (j : ℕ)
    (s : StormObjectRow σ) (hj : S[j]? = some s) :
    (∃ row, (reverse_wind_linkages S W)[j]? = some row ∧
      row.storm = s ∧
      row.wind_station_ids =
        (W.filter (windCond S j)).map (fun w => w.station_id) ∧
      row.relative_event_times_sec = (W.filter (windCond S j)).map
        (fun w => w.unix_time_sec - s.valid_time_unix_sec) ∧
      row.main_object_flags =
        (W.filter (windCond S j)).map (windMainFlag S j) ∧
      (∀ x ∈ row.relative_event_times_sec, 0 ≤ x) ∧
      (∀ i : ℕ, row.main_object_flags[i]? = some true →
        ∃ w, (W.filter (windCond S j))[i]? = some w ∧
          windMainRow S w = some j)) ∧
    (∃ row, (reverse_tornado_linkages S TT)[j]? = some row ∧
      row.storm = s ∧
      row.tornado_id_strings =
        (TT.filter (tornadoCond S j)).map (fun w => w.tornado_id_string) ∧
      row.relative_event_times_sec = (TT.filter (tornadoCond S j)).map
        (fun w => w.unix_time_sec - s.valid_time_unix_sec) ∧
      row.main_object_flags =
        (TT.filter (tornadoCond S j)).map (tornadoMainFlag S j) ∧
      (∀ x ∈ row.relative_event_times_sec, 0 ≤ x) ∧
      (∀ i : ℕ, row.main_object_flags[i]? = some true →
        ∃ w, (TT.filter (tornadoCond S j))[i]? = some w ∧
          tornadoMainRow S w = some j)) ∧
    (∀ (w : WindToStormRow σ ω) (m : ℕ), windMainRow S w = some m →
      m ∈ (find_predecessors S m).1) ∧
    (∀ (w : TornadoToStormFullRow σ τ φ) (m : ℕ),
      tornadoMainRow S w = some m → m ∈ (find_predecessors S m).1) := by
  have hjs : (S[j]?.elim 0 (fun r => r.valid_time_unix_sec)) =
      s.valid_time_unix_sec := by rw [hj]; rfl
  refine ⟨?_, ?_, ?_, ?_⟩
  · have hTstorm : (S.map (fun x => (initStormToWindsRow x :
        StormToWindsRow σ ω))).map (fun r => r.storm) = S := by
      rw [List.map_map]; exact List.map_id S
    have hTrow : (S.map (fun x => (initStormToWindsRow x :
        StormToWindsRow σ ω)))[j]? = some (initStormToWindsRow s) := by
      rw [List.getElem?_map, hj]; rfl
    obtain ⟨row, hget, hst, hids, hrel, hflags, _⟩ :=
      reverse_wind_fold_row S W _ j (initStormToWindsRow s) hTstorm hTrow
    simp only [initStormToWindsRow, List.nil_append] at hst hids hrel hflags
    refine ⟨row, hget, hst, hids, ?_, hflags, ?_, ?_⟩
    · exact hrel
    · intro x hx
      rw [hrel] at hx
      obtain ⟨w, hw, hxe⟩ := List.mem_map.mp hx
      have hcond := (List.mem_filter.mp hw).2
      have := windCond_time_le hcond
      rw [hjs] at this
      omega
    · intro i hi
      rw [hflags, List.getElem?_map] at hi
      cases hwi : (W.filter (windCond S j))[i]? with
      | none => rw [hwi] at hi; exact Option.noConfusion hi
      | some w =>
        rw [hwi] at hi
        simp at hi
        exact ⟨w, rfl, windMainFlag_eq_true hi⟩
  · have hTstorm : (S.map (fun x => (initStormToTornadoesRow x :
        StormToTornadoesRow σ τ φ))).map (fun r => r.storm) = S := by
      rw [List.map_map]; exact List.map_id S
    have hTrow : (S.map (fun x => (initStormToTornadoesRow x :
        StormToTornadoesRow σ τ φ)))[j]? =
          some (initStormToTornadoesRow s) := by
      rw [List.getElem?_map, hj]; rfl
    obtain ⟨row, hget, hst, hids, hrel, hflags, _⟩ :=
      reverse_tornado_fold_row S TT _ j (initStormToTornadoesRow s)
        hTstorm hTrow
    simp only [initStormToTornadoesRow, List.nil_append]
      at hst hids hrel hflags
    refine ⟨row, hget, hst, hids, ?_, hflags, ?_, ?_⟩
    · exact hrel
    · intro x hx
      rw [hrel] at hx
      obtain ⟨w, hw, hxe⟩ := List.mem_map.mp hx
      have hcond := (List.mem_filter.mp hw).2
      have := tornadoCond_time_le hcond
      rw [hjs] at this
      omega
    · intro i hi
      rw [hflags, List.getElem?_map] at hi
      cases hwi : (TT.filter (tornadoCond S j))[i]? with
      | none => rw [hwi] at hi; exact Option.noConfusion hi
      | some w =>
        rw [hwi] at hi
        simp at hi
        exact ⟨w, rfl, tornadoMainFlag_eq_true hi⟩
  · intro w m hm
    obtain ⟨r, hr⟩ := windMainRow_isValid hm
    exact target_mem_simple_predecessors hr
  · intro w m hm
    obtain ⟨r, hr⟩ := tornadoMainRow_isValid hm
    exact target_mem_simple_predecessors hr

/-- A one-row storm table for exercising C5. -/
def c5WitnessStorms : List (StormObjectRow ℕ) :=
  [⟨0, 0, none, none, none, none⟩]

/-- One linked wind observation for exercising C5. -/
def c5WitnessWinds : List (WindToStormRow ℕ ℕ) :=
  [⟨5, 35, -97, 60, 10, 10, some 0, 0, 1000⟩]

theorem c5_witness :
    (∃ row, (reverse_wind_linkages c5WitnessStorms c5WitnessWinds)[0]? =
        some row ∧
      row.storm = ⟨0, 0, none, none, none, none⟩ ∧
      row.wind_station_ids = (c5WitnessWinds.filter
        (windCond c5WitnessStorms 0)).map (fun w => w.station_id) ∧
      row.relative_event_times_sec = (c5WitnessWinds.filter
        (windCond c5WitnessStorms 0)).map (fun w => w.unix_time_sec -
          (⟨0, 0, none, none, none, none⟩ :
            StormObjectRow ℕ).valid_time_unix_sec) ∧
      row.main_object_flags = (c5WitnessWinds.filter
        (windCond c5WitnessStorms 0)).map (windMainFlag c5WitnessStorms 0) ∧
      (∀ x ∈ row.relative_event_times_sec, 0 ≤ x) ∧
      (∀ i : ℕ, row.main_object_flags[i]? = some true →
        ∃ w, (c5WitnessWinds.filter (windCond c5WitnessStorms 0))[i]? =
            some w ∧ windMainRow c5WitnessStorms w = some 0)) ∧
    (∃ row, (reverse_tornado_linkages c5WitnessStorms
        ([] : List (TornadoToStormFullRow ℕ ℕ ℕ)))[0]? = some row ∧
      row.storm = ⟨0, 0, none, none, none, none⟩ ∧
      row.tornado_id_strings = (([] : List (TornadoToStormFullRow ℕ ℕ ℕ)).filter
        (tornadoCond c5WitnessStorms 0)).map (fun w => w.tornado_id_string) ∧
      row.relative_event_times_sec =
        (([] : List (TornadoToStormFullRow ℕ ℕ ℕ)).filter
        (tornadoCond c5WitnessStorms 0)).map (fun w => w.unix_time_sec -
          (⟨0, 0, none, none, none, none⟩ :
            StormObjectRow ℕ).valid_time_unix_sec) ∧
      row.main_object_flags = (([] : List (TornadoToStormFullRow ℕ ℕ ℕ)).filter
        (tornadoCond c5WitnessStorms 0)).map
          (tornadoMainFlag c5WitnessStorms 0) ∧
      (∀ x ∈ row.relative_event_times_sec, 0 ≤ x) ∧
      (∀ i : ℕ, row.main_object_flags[i]? = some true →
        ∃ w, (([] : List (TornadoToStormFullRow ℕ ℕ ℕ)).filter
            (tornadoCond c5WitnessStorms 0))[i]? = some w ∧
          tornadoMainRow c5WitnessStorms w = some 0)) ∧
    (∀ (w : WindToStormRow ℕ ℕ) (m : ℕ),
      windMainRow c5WitnessStorms w = some m →
      m ∈ (find_predecessors c5WitnessStorms m).1) ∧
    (∀ (w : TornadoToStormFullRow ℕ ℕ ℕ) (m : ℕ),
      tornadoMainRow c5WitnessStorms w = some m →
      m ∈ (find_predecessors c5WitnessStorms m).1) :=
  c5_reversal_appends_to_simple_predecessors c5WitnessStorms c5WitnessWinds
    ([] : List (TornadoToStormFullRow ℕ ℕ ℕ)) 0
    ⟨0, 0, none, none, none, none⟩ rfl

/-! ## Temporal interpolation: `_interp_one_storm_in_time`
(linkage.py lines 399-518), `_find_secondary_start_end_times`
(lines 521-575) and `_interp_storms_in_time` (lines 578-679).
(`interp.interp_in_time` is a repository module absent from src/; its
linear interpolation with extrapolation is modelled from the spec.) -/

/-- One row of a storm-object table after `_project_storms_latlng_to_xy`:
the graph/time columns plus planar centroid and polygon vertices. -/
structure ProjectedStormRow (σ : Type) : Type where
  storm : StormObjectRow σ
  centroid_x_metres : ℚ
  centroid_y_metres : ℚ
  vertices_x_metres : List ℚ
  vertices_y_metres : List ℚ

/-- The rows of a one-cell table at one valid time, in table order
(`numpy.where(orig_to_unique_indices == i)`). -/
def rowsAtTime (tbl : List (ProjectedStormRow σ)) (t : ℤ) :
    List (ProjectedStormRow σ) :=
  tbl.filter (fun r => decide (r.storm.valid_time_unix_sec = t))

/-- The per-time x-centroid: the mean over the rows at that time
(lines 449-452). -/
def meanCentroidX (tbl : List (ProjectedStormRow σ)) (t : ℤ) : ℚ :=
  ((rowsAtTime tbl t).map (fun r => r.centroid_x_metres)).sum /
    ((rowsAtTime tbl t).length : ℚ)

/-- The per-time y-centroid (lines 454-457). -/
def meanCentroidY (tbl : List (ProjectedStormRow σ)) (t : ℤ) : ℚ :=
  ((rowsAtTime tbl t).map (fun r => r.centroid_y_metres)).sum /
    ((rowsAtTime tbl t).length : ℚ)

/-- The concatenated x-vertices at one time, each row's vertices shifted by
(mean centroid - row centroid) (lines 459-477). -/
def shiftedVerticesX (tbl : List (ProjectedStormRow σ)) (t : ℤ) : List ℚ :=
  (rowsAtTime tbl t).flatMap (fun r =>
    r.vertices_x_metres.map (fun v =>
      (meanCentroidX tbl t - r.centroid_x_metres) + v))

/-- The concatenated y-vertices at one time (lines 479-486). -/
def shiftedVerticesY (tbl : List (ProjectedStormRow σ)) (t : ℤ) : List ℚ :=
  (rowsAtTime tbl t).flatMap (fun r =>
    r.vertices_y_metres.map (fun v =>
      (meanCentroidY tbl t - r.centroid_y_metres) + v))

/-- Modelled from the spec: `interp.interp_in_time` with
`method_string=LINEAR` and `extrapolate=True` (the module is absent from
src/).  Piecewise-linear interpolation over the sorted node times `ts` with
values `f`, extrapolating linearly beyond either end from the nearest
segment; a single node gives its own value everywhere. -/
def linearInterpSorted (f : ℤ → ℚ) (q : ℤ) : List ℤ → ℚ
  | [] => 0
  | [t] => f t
  | t₁ :: t₂ :: rest =>
    if q ≤ t₂ ∨ rest = [] then
      f t₁ + (f t₂ - f t₁) * ((q : ℚ) - (t₁ : ℚ)) / ((t₂ : ℚ) - (t₁ : ℚ))
    else linearInterpSorted f q (t₂ :: rest)

/-- Linear interpolation returns the node value at a node of a strictly
sorted node list. -/
theorem linearInterpSorted_at_node (f : ℤ → ℚ) :
    ∀ (ts : List ℤ), ts.Sorted (· < ·) → ∀ q ∈ ts,
      linearInterpSorted f q ts = f q := by
  intro ts
  induction ts with
  | nil => intro _ q hq; simp at hq
  | cons t₁ rest ih =>
    intro hsort q hq
    cases rest with
    | nil =>
      simp only [List.mem_singleton] at hq
      subst hq
      rfl
    | cons t₂ rest' =>
      have h12 : t₁ < t₂ :=
        (List.sorted_cons.mp hsort).1 t₂ (List.mem_cons_self _ _)
      rcases List.mem_cons.mp hq with hq1 | hq2
      · subst hq1
        rw [linearInterpSorted, if_pos (Or.inl (by omega))]
        simp
      · rcases List.mem_cons.mp hq2 with hq2 | hq3
        · subst hq2
          rw [linearInterpSorted, if_pos (Or.inl le_rfl)]
          have hne : ((q : ℚ) - (t₁ : ℚ)) ≠ 0 := by
            have : (t₁ : ℚ) < (q : ℚ) := by exact_mod_cast h12
            intro hc
            nlinarith
          field_simp
        · have hlt : t₂ < q :=
            ((List.sorted_cons.mp (List.sorted_cons.mp hsort).2).1) q hq3
          rw [linearInterpSorted, if_neg]
          · exact ih (List.sorted_cons.mp hsort).2 q hq2
          · push_neg
            exact ⟨by omega, List.ne_nil_of_mem hq3⟩

/-- `_interp_one_storm_in_time` (linkage.py lines 399-518): advect the storm
object nearest in time to the target as a solid body, translated by the
difference between the linearly interpolated centroid and that time step's
centroid. -/
def interp_one_storm_in_time (storm_object_table_1cell :
    List (ProjectedStormRow σ)) (secondary_id_string : σ)
    (target_time_unix_sec : ℤ) : List (InterpVertexRow σ) :=
  let ts := numpyUnique (storm_object_table_1cell.map
    (fun r => r.storm.valid_time_unix_sec))
  let interpX := linearInterpSorted
    (meanCentroidX storm_object_table_1cell) target_time_unix_sec ts
  let interpY := linearInterpSorted
    (meanCentroidY storm_object_table_1cell) target_time_unix_sec ts
  match numpyArgminFirst (fun t => |t - target_time_unix_sec|) ts with
  | none => []
  | some tNear =>
    ((shiftedVerticesX storm_object_table_1cell tNear).zip
      (shiftedVerticesY storm_object_table_1cell tNear)).map (fun vv =>
        ⟨secondary_id_string,
         interpX - meanCentroidX storm_object_table_1cell tNear + vv.1,
         interpY - meanCentroidY storm_object_table_1cell tNear + vv.2⟩)

/-- The start time of one secondary ID: the minimum valid time over its rows
(`_find_secondary_start_end_times`, lines 554-569); 0 when the ID has no
rows (never read in that case). -/
def secondaryStartTime [DecidableEq σ] (tbl : List (ProjectedStormRow σ))
    (sec : σ) : ℤ :=
  match (tbl.filter (fun r =>
      decide (r.storm.secondary_id_string = sec))).map
        (fun r => r.storm.valid_time_unix_sec) with
  | [] => 0
  | t :: ts => ts.foldl min t

/-- The end time of one secondary ID: the maximum valid time over its
rows. -/
def secondaryEndTime [DecidableEq σ] (tbl : List (ProjectedStormRow σ))
    (sec : σ) : ℤ :=
  match (tbl.filter (fun r =>
      decide (r.storm.secondary_id_string = sec))).map
        (fun r => r.storm.valid_time_unix_sec) with
  | [] => 0
  | t :: ts => ts.foldl max t

/-- Index positions of the rows satisfying a predicate
(`numpy.where(...)`), offset by `n`. -/
def idxsWhere {A : Type} (p : A → Bool) : List A → ℕ → List ℕ
  | [], _ => []
  | a :: as, n =>
    if p a then n :: idxsWhere p as (n + 1) else idxsWhere p as (n + 1)

/-- `_interp_storms_in_time` (linkage.py lines 578-679): pre-filter cells by
the secondary-ID start/end window with an 1800-second slack, sort the
survivors by valid time, and for each unique secondary ID interpolate the
cell (its rows plus immediate predecessor and successor rows) to the target
time - skipping cells whose combined row set has a single row and cells
whose own first/last times fall outside the exact window.  The outlines
concatenate into one vertex table (the source's `.align` call only aligns
identical column sets and is the identity here).  pandas' unstable
`sort_values` is refined to a stable insertion sort; none of the verified
statements depend on the order of equal-time rows. -/
def interpStormsSorted [LinearOrder σ]
    (storm_object_table : List (ProjectedStormRow σ))
    (target_time_unix_sec max_time_before_start_sec
      max_time_after_end_sec : ℤ) : List (ProjectedStormRow σ) :=
  List.insertionSort
    (fun a b => a.storm.valid_time_unix_sec ≤ b.storm.valid_time_unix_sec)
    (storm_object_table.filter (fun r =>
      decide (secondaryStartTime storm_object_table
        r.storm.secondary_id_string ≤
          target_time_unix_sec + max_time_before_start_sec + 1800) &&
      decide (target_time_unix_sec - max_time_after_end_sec - 1800 ≤
        secondaryEndTime storm_object_table r.storm.secondary_id_string)))

/-- The body of the per-secondary-ID loop of `_interp_storms_in_time`
(lines 621-671): the cell's rows plus immediate predecessor and successor
rows, skipped when that combined set has a single row or when the cell's
own first/last times fall outside the exact window. -/
def interpStormsOneId [DecidableEq σ]
    (sorted : List (ProjectedStormRow σ))
    (target_time_unix_sec max_start min_end : ℤ) (sid : σ) :
    List (InterpVertexRow σ) :=
  let stormList := sorted.map (fun r => r.storm)
  let mainRows := idxsWhere (fun r =>
    decide (r.storm.secondary_id_string = sid)) sorted 0
  match mainRows.head?, mainRows.getLast? with
  | some firstRow, some lastRow =>
    let predRows := find_immediate_predecessors stormList firstRow
    let succRows := find_immediate_successors stormList lastRow
    let theseRows := predRows ++ mainRows ++ succRows
    if theseRows.length = 1 then []
    else
      match sorted[firstRow]?, sorted[lastRow]? with
      | some fr, some lr =>
        if max_start < fr.storm.valid_time_unix_sec then []
        else if lr.storm.valid_time_unix_sec < min_end then []
        else interp_one_storm_in_time
          (theseRows.filterMap (fun i => sorted[i]?)) sid
          target_time_unix_sec
      | _, _ => []
  | _, _ => []

def interp_storms_in_time [LinearOrder σ]
    (storm_object_table : List (ProjectedStormRow σ))
    (target_time_unix_sec max_time_before_start_sec
      max_time_after_end_sec : ℤ) : List (InterpVertexRow σ) :=
  (numpyUnique ((interpStormsSorted storm_object_table target_time_unix_sec
    max_time_before_start_sec max_time_after_end_sec).map
      (fun r => r.storm.secondary_id_string))).flatMap
    (interpStormsOneId
      (interpStormsSorted storm_object_table target_time_unix_sec
        max_time_before_start_sec max_time_after_end_sec)
      target_time_unix_sec
      (target_time_unix_sec + max_time_before_start_sec)
      (target_time_unix_sec - max_time_after_end_sec))

/-- A `≤`-sorted list without duplicates is `<`-sorted. -/
theorem sorted_lt_of_sorted_le_nodup {l : List ℤ}
    (hs : l.Sorted (· ≤ ·)) (hnd : l.Nodup) : l.Sorted (· < ·) := by
  have := List.Pairwise.and hs hnd
  exact this.imp (fun h => lt_of_le_of_ne h.1 h.2)

/-- The time nearest the target is the target itself when the target occurs
among the (deduplicated) times. -/
theorem argmin_abs_self {ts : List ℤ} {target : ℤ} (hnd : ts.Nodup)
    (hmem : target ∈ ts) :
    numpyArgminFirst (fun t => |t - target|) ts = some target := by
  cases h : numpyArgminFirst (fun t => |t - target|) ts with
  | none =>
    rw [numpyArgminFirst_eq_none_iff] at h
    rw [h] at hmem
    simp at hmem
  | some a =>
    have hle := numpyArgminFirst_le _ h target hmem
    simp only [sub_self, abs_zero] at hle
    have habs : |a - target| = 0 := le_antisymm hle (abs_nonneg _)
    have h0 : a - target = 0 := abs_eq_zero.mp habs
    have : a = target := by omega
    rw [this]

/-- The mean centroid over a single row is that row's centroid. -/
theorem meanCentroidX_single {tbl : List (ProjectedStormRow σ)} {t : ℤ}
    {r : ProjectedStormRow σ} (h : rowsAtTime tbl t = [r]) :
    meanCentroidX tbl t = r.centroid_x_metres := by
  unfold meanCentroidX
  rw [h]
  norm_num

theorem meanCentroidY_single {tbl : List (ProjectedStormRow σ)} {t : ℤ}
    {r : ProjectedStormRow σ} (h : rowsAtTime tbl t = [r]) :
    meanCentroidY tbl t = r.centroid_y_metres := by
  unfold meanCentroidY
  rw [h]
  norm_num

/-- C4's identity core: when the target time is the valid time of exactly
one row of the one-cell table, `_interp_one_storm_in_time` returns that
row's original polygon vertices unchanged. -/
theorem interp_one_storm_identity [DecidableEq σ]
    (tbl : List (ProjectedStormRow σ)) (sid : σ) (target : ℤ)
    (r : ProjectedStormRow σ) (hone : rowsAtTime tbl target = [r]) :
    interp_one_storm_in_time tbl sid target =
      (r.vertices_x_metres.zip r.vertices_y_metres).map (fun vv =>
        (⟨sid, vv.1, vv.2⟩ : InterpVertexRow σ)) := by
  have hrmem : r ∈ rowsAtTime tbl target := by rw [hone]; simp
  have hrtbl : r ∈ tbl := List.mem_of_mem_filter hrmem
  have hrtime : r.storm.valid_time_unix_sec = target := by
    have := List.of_mem_filter hrmem
    simpa using this
  have htsmem : target ∈ numpyUnique (tbl.map
      (fun q => q.storm.valid_time_unix_sec)) := by
    rw [mem_numpyUnique]
    exact List.mem_map.mpr ⟨r, hrtbl, hrtime⟩
  have hargmin : numpyArgminFirst (fun t => |t - target|)
      (numpyUnique (tbl.map (fun q => q.storm.valid_time_unix_sec))) =
        some target :=
    argmin_abs_self (numpyUnique_nodup _) htsmem
  have hinterpX : linearInterpSorted (meanCentroidX tbl) target
      (numpyUnique (tbl.map (fun q => q.storm.valid_time_unix_sec))) =
        meanCentroidX tbl target :=
    linearInterpSorted_at_node _ _
      (sorted_lt_of_sorted_le_nodup (numpyUnique_sorted _)
        (numpyUnique_nodup _)) target htsmem
  have hinterpY : linearInterpSorted (meanCentroidY tbl) target
      (numpyUnique (tbl.map (fun q => q.storm.valid_time_unix_sec))) =
        meanCentroidY tbl target :=
    linearInterpSorted_at_node _ _
      (sorted_lt_of_sorted_le_nodup (numpyUnique_sorted _)
        (numpyUnique_nodup _)) target htsmem
  have hvx : shiftedVerticesX tbl target = r.vertices_x_metres := by
    unfold shiftedVerticesX
    rw [hone, meanCentroidX_single hone]
    simp
  have hvy : shiftedVerticesY tbl target = r.vertices_y_metres := by
    unfold shiftedVerticesY
    rw [hone, meanCentroidY_single hone]
    simp
  simp only [interp_one_storm_in_time]
  rw [hargmin]
  simp only [hinterpX, hinterpY, hvx, hvy, sub_self, zero_add]

theorem length_idxsWhere {A : Type} (p : A → Bool) :
    ∀ (l : List A) (n : ℕ), (idxsWhere p l n).length = l.countP p := by
  intro l
  induction l with
  | nil => intro n; simp [idxsWhere]
  | cons a as ih =>
    intro n
    by_cases hp : p a <;>
      simp [idxsWhere, hp, ih (n + 1), List.countP_cons]

theorem getElem?_of_mem_idxsWhere {A : Type} {p : A → Bool} :
    ∀ {l : List A} {n i : ℕ}, i ∈ idxsWhere p l n →
      n ≤ i ∧ ∃ x, l[i - n]? = some x ∧ p x = true := by
  intro l
  induction l with
  | nil => intro n i hi; simp [idxsWhere] at hi
  | cons a as ih =>
    intro n i hi
    by_cases hp : p a
    · rw [idxsWhere, if_pos hp] at hi
      rcases List.mem_cons.mp hi with hi | hi
      · subst hi
        exact ⟨le_rfl, a, by simp, hp⟩
      · obtain ⟨hle, x, hx, hpx⟩ := ih hi
        refine ⟨by omega, x, ?_, hpx⟩
        have : i - n = (i - (n + 1)) + 1 := by omega
        rw [this, List.getElem?_cons_succ]
        exact hx
    · rw [idxsWhere, if_neg hp] at hi
      obtain ⟨hle, x, hx, hpx⟩ := ih hi
      refine ⟨by omega, x, ?_, hpx⟩
      have : i - n = (i - (n + 1)) + 1 := by omega
      rw [this, List.getElem?_cons_succ]
      exact hx

/-- Every immediate predecessor row is strictly earlier than its target
row. -/
theorem find_immediate_predecessors_earlier [DecidableEq σ]
    {tbl : List (StormObjectRow σ)} {i j : ℕ} {ri : StormObjectRow σ}
    (hi : tbl[i]? = some ri) (hj : j ∈ find_immediate_predecessors tbl i) :
    ∃ rj, tbl[j]? = some rj ∧
      rj.valid_time_unix_sec < ri.valid_time_unix_sec := by
  unfold find_immediate_predecessors at hj
  rw [hi] at hj
  obtain ⟨p, _, hargm⟩ := List.mem_filterMap.mp hj
  have hjmem := numpyArgminFirst_mem _ hargm
  have hfilt := List.of_mem_filter hjmem
  cases hq : tbl[j]? with
  | none => rw [hq] at hfilt; simp at hfilt
  | some q =>
    rw [hq] at hfilt
    simp only [Option.elim_some, Bool.and_eq_true, decide_eq_true_eq]
      at hfilt
    exact ⟨q, rfl, hfilt.2⟩

/-- Every immediate successor row is strictly later than its target row. -/
theorem find_immediate_successors_later [DecidableEq σ]
    {tbl : List (StormObjectRow σ)} {i j : ℕ} {ri : StormObjectRow σ}
    (hi : tbl[i]? = some ri) (hj : j ∈ find_immediate_successors tbl i) :
    ∃ rj, tbl[j]? = some rj ∧
      ri.valid_time_unix_sec < rj.valid_time_unix_sec := by
  unfold find_immediate_successors at hj
  rw [hi] at hj
  obtain ⟨p, _, hargm⟩ := List.mem_filterMap.mp hj
  have hjmem := numpyArgminFirst_mem _ hargm
  have hfilt := List.of_mem_filter hjmem
  cases hq : tbl[j]? with
  | none => rw [hq] at hfilt; simp at hfilt
  | some q =>
    rw [hq] at hfilt
    simp only [Option.elim_some, Bool.and_eq_true, decide_eq_true_eq]
      at hfilt
    exact ⟨q, rfl, hfilt.2⟩

/-- Every row produced by `_interp_one_storm_in_time` carries the given
secondary ID. -/
theorem interp_one_storm_id [DecidableEq σ]
    {tbl : List (ProjectedStormRow σ)} {sid : σ} {t : ℤ}
    {v : InterpVertexRow σ} (hv : v ∈ interp_one_storm_in_time tbl sid t) :
    v.secondary_id_string = sid := by
  simp only [interp_one_storm_in_time] at hv
  split at hv
  · simp at hv
  · simp only [List.mem_map] at hv
    obtain ⟨vv, _, hvv⟩ := hv
    rw [← hvv]

/-- Filtering a concatenation of per-ID blocks down to one ID keeps exactly
that ID's block. -/
theorem flatMap_filter_single_id [DecidableEq σ]
    {ids : List σ} (hnd : ids.Nodup)
    (F : σ → List (InterpVertexRow σ))
    (hF : ∀ sid' ∈ ids, ∀ v ∈ F sid', v.secondary_id_string = sid')
    (sid : σ) :
    (ids.flatMap F).filter
        (fun v => decide (v.secondary_id_string = sid)) =
      if sid ∈ ids then F sid else [] := by
  induction ids with
  | nil => simp
  | cons a rest ih =>
    have hndr : rest.Nodup := (List.nodup_cons.mp hnd).2
    have hanr : a ∉ rest := (List.nodup_cons.mp hnd).1
    rw [List.flatMap_cons, List.filter_append]
    by_cases hsa : sid = a
    · subst hsa
      rw [List.filter_eq_self.mpr (fun v hv => by
          simp [hF sid (List.mem_cons_self _ _) v hv])]
      rw [ih hndr (fun s hs v hv => hF s (List.mem_cons_of_mem _ hs) v hv)]
      rw [if_neg hanr, if_pos (List.mem_cons_self _ _)]
      simp
    · rw [List.filter_eq_nil_iff.mpr (fun v hv => by
          simp [hF a (List.mem_cons_self _ _) v hv]
          exact fun h => hsa h.symm)]
      rw [ih hndr (fun s hs v hv => hF s (List.mem_cons_of_mem _ hs) v hv)]
      rw [List.nil_append]
      by_cases hsr : sid ∈ rest
      · rw [if_pos hsr, if_pos (List.mem_cons_of_mem a hsr)]
      · rw [if_neg hsr, if_neg (by
          intro hc
          rcases List.mem_cons.mp hc with h | h
          · exact hsa h
          · exact hsr h)]

/-- Every row produced by one iteration of the per-ID loop carries that
iteration's secondary ID. -/
theorem interpStormsOneId_ids [DecidableEq σ]
    {sorted : List (ProjectedStormRow σ)} {t ms me : ℤ} {sid : σ}
    {v : InterpVertexRow σ} (hv : v ∈ interpStormsOneId sorted t ms me sid) :
    v.secondary_id_string = sid := by
  simp only [interpStormsOneId] at hv
  split at hv
  · split at hv
    · simp at hv
    · split at hv
      · split at hv
        · simp at hv
        · split at hv
          · simp at hv
          · exact interp_one_storm_id hv
      · simp at hv
  · simp at hv

theorem mem_of_getElem?_some {A : Type} {l : List A} {i : ℕ} {a : A}
    (h : l[i]? = some a) : a ∈ l := by
  obtain ⟨hlt, rfl⟩ := List.getElem?_eq_some_iff.mp h
  exact List.getElem_mem hlt

theorem interpStormsSorted_countP_le [LinearOrder σ]
    (T : List (ProjectedStormRow σ)) (t mb ma : ℤ)
    (p : ProjectedStormRow σ → Bool) :
    (interpStormsSorted T t mb ma).countP p ≤ T.countP p := by
  unfold interpStormsSorted
  rw [(List.perm_insertionSort _ _).countP_eq]
  exact (List.filter_sublist T).countP_le p

theorem mem_interpStormsSorted [LinearOrder σ]
    {T : List (ProjectedStormRow σ)} {t mb ma : ℤ}
    {x : ProjectedStormRow σ} (h : x ∈ interpStormsSorted T t mb ma) :
    x ∈ T := by
  unfold interpStormsSorted at h
  exact List.mem_of_mem_filter ((List.perm_insertionSort _ _).mem_iff.mp h)

/-- C4 (amended): for a storm cell with exactly one recorded valid time,
interpolating to that exact time preserves its polygon: whenever
`_interp_one_storm_in_time` runs for the cell, it returns the original
vertices unchanged (third conjunct); in the batch `_interp_storms_in_time`
the cell's rows in the output are either exactly those original vertices or
absent (first conjunct), and they are always absent when the cell has no
immediate predecessors or successors - an isolated single-time cell is
skipped by the `len(these_rows) == 1` branch and contributes nothing
(second conjunct), contrary to the original claim. -/
theorem c4_single_time_cell_interpolation [LinearOrder σ]
    (T : List (ProjectedStormRow σ)) (sid : σ) (r : ProjectedStormRow σ)
    (target max_before max_after : ℤ)
    (hone : T.filter
      (fun q => decide (q.storm.secondary_id_string = sid)) = [r])
    (htime : r.storm.valid_time_unix_sec = target)
    (hb : 0 ≤ max_before) (ha : 0 ≤ max_after) :
    ((interp_storms_in_time T target max_before max_after).filter
        (fun v => decide (v.secondary_id_string = sid)) = [] ∨
      (interp_storms_in_time T target max_before max_after).filter
        (fun v => decide (v.secondary_id_string = sid)) =
        (r.vertices_x_metres.zip r.vertices_y_metres).map
          (fun vv => (⟨sid, vv.1, vv.2⟩ : InterpVertexRow σ))) ∧
    ((prevSecondaryIds r.storm = [] ∧ nextSecondaryIds r.storm = []) →
      (interp_storms_in_time T target max_before max_after).filter
        (fun v => decide (v.secondary_id_string = sid)) = []) ∧
    (∀ tbl1 : List (ProjectedStormRow σ), rowsAtTime tbl1 target = [r] →
      interp_one_storm_in_time tbl1 sid target =
        (r.vertices_x_metres.zip r.vertices_y_metres).map
          (fun vv => (⟨sid, vv.1, vv.2⟩ : InterpVertexRow σ))) := by
  have hfilter_eq : (interp_storms_in_time T target max_before
      max_after).filter (fun v => decide (v.secondary_id_string = sid)) =
      if sid ∈ numpyUnique ((interpStormsSorted T target max_before
          max_after).map (fun q => q.storm.secondary_id_string)) then
        interpStormsOneId (interpStormsSorted T target max_before max_after)
          target (target + max_before) (target - max_after) sid
      else [] := by
    simp only [interp_storms_in_time]
    exact flatMap_filter_single_id (numpyUnique_nodup _) _
      (fun s _ v hv => interpStormsOneId_ids hv) sid
  by_cases hmem : sid ∈ numpyUnique ((interpStormsSorted T target max_before
      max_after).map (fun q => q.storm.secondary_id_string))
  case neg =>
    rw [hfilter_eq, if_neg hmem]
    exact ⟨Or.inl rfl, fun _ => rfl,
      fun tbl1 h1 => interp_one_storm_identity tbl1 sid target r h1⟩
  case pos =>
    have hTc : T.countP
        (fun q => decide (q.storm.secondary_id_string = sid)) = 1 := by
      rw [List.countP_eq_length_filter, hone]
      rfl
    have hle := interpStormsSorted_countP_le T target max_before max_after
      (fun q => decide (q.storm.secondary_id_string = sid))
    have hpos : 0 < (interpStormsSorted T target max_before
        max_after).countP
          (fun q => decide (q.storm.secondary_id_string = sid)) := by
      rw [mem_numpyUnique] at hmem
      obtain ⟨row, hrow, hid⟩ := List.mem_map.mp hmem
      exact List.countP_pos_iff.mpr ⟨row, hrow, by simp [hid]⟩
    have hcount : (interpStormsSorted T target max_before
        max_after).countP
          (fun q => decide (q.storm.secondary_id_string = sid)) = 1 := by
      omega
    have hlen : (idxsWhere
        (fun q => decide (q.storm.secondary_id_string = sid))
        (interpStormsSorted T target max_before max_after) 0).length = 1 := by
      rw [length_idxsWhere]
      exact hcount
    obtain ⟨i₀, hi₀⟩ := List.length_eq_one.mp hlen
    have hi₀mem : i₀ ∈ idxsWhere
        (fun q => decide (q.storm.secondary_id_string = sid))
        (interpStormsSorted T target max_before max_after) 0 := by
      rw [hi₀]
      simp
    obtain ⟨-, x, hx, hpx⟩ := getElem?_of_mem_idxsWhere hi₀mem
    rw [Nat.sub_zero] at hx
    have hxr : x = r := by
      have hxT : x ∈ T := mem_interpStormsSorted (mem_of_getElem?_some hx)
      have hxf : x ∈ T.filter
          (fun q => decide (q.storm.secondary_id_string = sid)) :=
        List.mem_filter.mpr ⟨hxT, hpx⟩
      rw [hone] at hxf
      simpa using hxf
    rw [hxr] at hx hpx
    have hsx : ((interpStormsSorted T target max_before max_after).map
        (fun q => q.storm))[i₀]? = some r.storm := by
      rw [List.getElem?_map, hx]
      rfl
    rw [hfilter_eq, if_pos hmem]
    simp only [interpStormsOneId, hi₀, List.head?_cons,
      List.getLast?_singleton]
    refine ⟨?_, ?_,
      fun tbl1 h1 => interp_one_storm_identity tbl1 sid target r h1⟩
    · by_cases hlen1 : (find_immediate_predecessors
          ((interpStormsSorted T target max_before max_after).map
            (fun q => q.storm)) i₀ ++ [i₀] ++
          find_immediate_successors
          ((interpStormsSorted T target max_before max_after).map
            (fun q => q.storm)) i₀).length = 1
      · rw [if_pos hlen1]
        exact Or.inl rfl
      · rw [if_neg hlen1, hx]
        dsimp only
        rw [if_neg (by rw [htime]; omega), if_neg (by rw [htime]; omega)]
        refine Or.inr (interp_one_storm_identity _ sid target r ?_)
        unfold rowsAtTime
        rw [List.filterMap_append, List.filterMap_append,
          List.filter_append, List.filter_append]
        have hpnil : ((find_immediate_predecessors
            ((interpStormsSorted T target max_before max_after).map
              (fun q => q.storm)) i₀).filterMap
            (fun i => (interpStormsSorted T target max_before
              max_after)[i]?)).filter
            (fun q => decide (q.storm.valid_time_unix_sec = target)) =
              [] := by
          rw [List.filter_eq_nil_iff]
          intro y hy
          obtain ⟨j, hj, hjy⟩ := List.mem_filterMap.mp hy
          obtain ⟨rj, hrj, hlt⟩ :=
            find_immediate_predecessors_earlier hsx hj
          rw [List.getElem?_map, hjy] at hrj
          simp only [Option.map_some'] at hrj
          have hyt : y.storm = rj := by
            simpa using hrj
          rw [htime] at hlt
          simp only [hyt, decide_eq_true_eq] <;> omega
        have hsnil : ((find_immediate_successors
            ((interpStormsSorted T target max_before max_after).map
              (fun q => q.storm)) i₀).filterMap
            (fun i => (interpStormsSorted T target max_before
              max_after)[i]?)).filter
            (fun q => decide (q.storm.valid_time_unix_sec = target)) =
              [] := by
          rw [List.filter_eq_nil_iff]
          intro y hy
          obtain ⟨j, hj, hjy⟩ := List.mem_filterMap.mp hy
          obtain ⟨rj, hrj, hlt⟩ :=
            find_immediate_successors_later hsx hj
          rw [List.getElem?_map, hjy] at hrj
          simp only [Option.map_some'] at hrj
          have hyt : y.storm = rj := by
            simpa using hrj
          rw [htime] at hlt
          simp only [hyt, decide_eq_true_eq] <;> omega
        rw [hpnil, hsnil]
        simp [hx, htime, List.filterMap_cons, List.filterMap_nil]
    · rintro ⟨hprev, hnext⟩
      have hpred0 : find_immediate_predecessors
          ((interpStormsSorted T target max_before max_after).map
            (fun q => q.storm)) i₀ = [] := by
        simp only [find_immediate_predecessors, hsx, hprev,
          List.filterMap_nil]
      have hsucc0 : find_immediate_successors
          ((interpStormsSorted T target max_before max_after).map
            (fun q => q.storm)) i₀ = [] := by
        simp only [find_immediate_successors, hsx, hnext,
          List.filterMap_nil]
      rw [hpred0, hsucc0]
      simp

/-- An isolated single-time storm cell: one row, no predecessor or successor
IDs. -/
def c4CounterexampleTable : List (ProjectedStormRow ℕ) :=
  [⟨⟨0, 100, none, none, none, none⟩, 0, 0, [1, 2, 3], [4, 5, 6]⟩]

/-- C4 counterexample: a storm cell with exactly one recorded valid time and
no linked neighbours, interpolated to that exact time with the default
300-second windows, contributes NOTHING to the batch result of
`_interp_storms_in_time`: its combined row set has length 1, so the
`len(these_rows) == 1` branch skips it and the output vertex table is
empty, while the claim promises the cell's single-time shape in the
output. -/
theorem c4_counterexample :
    c4CounterexampleTable.filter
      (fun q => decide (q.storm.secondary_id_string = 0)) =
      [⟨⟨0, 100, none, none, none, none⟩, 0, 0, [1, 2, 3], [4, 5, 6]⟩] ∧
    (⟨⟨0, 100, none, none, none, none⟩, 0, 0, [1, 2, 3], [4, 5, 6]⟩ :
      ProjectedStormRow ℕ).storm.valid_time_unix_sec = 100 ∧
    interp_storms_in_time c4CounterexampleTable 100 300 300 = [] := by
  refine ⟨rfl, rfl, ?_⟩
  rfl

/-- A single-time storm cell (ID 0 at time 100) preceded by a neighbouring
cell (ID 1 at time 0), for exercising C4. -/
def c4WitnessTable : List (ProjectedStormRow ℕ) :=
  [⟨⟨1, 0, none, none, some 0, none⟩, 0, 0, [10], [20]⟩,
   ⟨⟨0, 100, some 1, none, none, none⟩, 5, 5, [1, 2], [3, 4]⟩]

theorem c4_witness :
    ((interp_storms_in_time c4WitnessTable 100 300 300).filter
        (fun v => decide (v.secondary_id_string = 0)) = [] ∨
      (interp_storms_in_time c4WitnessTable 100 300 300).filter
        (fun v => decide (v.secondary_id_string = 0)) =
        (([1, 2] : List ℚ).zip ([3, 4] : List ℚ)).map
          (fun vv => (⟨0, vv.1, vv.2⟩ : InterpVertexRow ℕ))) ∧
    ((prevSecondaryIds (⟨0, 100, some 1, none, none, none⟩ :
        StormObjectRow ℕ) = [] ∧
      nextSecondaryIds (⟨0, 100, some 1, none, none, none⟩ :
        StormObjectRow ℕ) = []) →
      (interp_storms_in_time c4WitnessTable 100 300 300).filter
        (fun v => decide (v.secondary_id_string = 0)) = []) ∧
    (∀ tbl1 : List (ProjectedStormRow ℕ), rowsAtTime tbl1 100 =
        [⟨⟨0, 100, some 1, none, none, none⟩, 5, 5, [1, 2], [3, 4]⟩] →
      interp_one_storm_in_time tbl1 0 100 =
        (([1, 2] : List ℚ).zip ([3, 4] : List ℚ)).map
          (fun vv => (⟨0, vv.1, vv.2⟩ : InterpVertexRow ℕ))) :=
  c4_single_time_cell_interpolation c4WitnessTable 0
    ⟨⟨0, 100, some 1, none, none, none⟩, 5, 5, [1, 2], [3, 4]⟩
    100 300 300 rfl rfl (by norm_num) (by norm_num)

end Linkage
